import Mathlib

/-!
HCSR04 ultrasonic sensor driver.

A shallow embedding of `HCSR04.h` / `HCSR04.cpp`.

* The object's fields become the structure `HCSR04`; every public method is a
  function that takes the object and returns its result together with the
  object after the call.
* The Arduino primitives (`pinMode`, `digitalWrite`, `delayMicroseconds`,
  `pulseIn`) are external.  Each call is recorded, in program order, in a `Trace`;
  the value `pulseIn` hands back is an input of `ping`.
* `int`, `short` and `long` values are `Int`; the driver only stores and
  compares them, the single arithmetic operation being `duration/2`.
* A `float` or `double` value is the rational number it denotes.  `float` is
  the IEEE binary32 format (24 significant bits) and `double` the binary64
  format (53 significant bits); every conversion and the product round to the
  nearest value of the format, ties to even (`roundToPrecision`).  On a target
  whose `double` has the `float` format the last bits of a product can differ.
* The conversion `(short) distance` discards the fractional part.  When the
  result does not fit 16 bits C++ leaves the behaviour open; the compiled code
  keeps the low 16 bits of the integer, and so does `castShort`.
* A call of a public method is an `Op`; `HCSR04.step` performs one call and
  `runOps` a sequence of calls, starting from the constructed object.
-/

/-! ## Constants of `HCSR04.h` -/

def HCSR04_RUNSTATE_UNKOWN : Int := 0
def HCSR04_RUNSTATE_CREATED : Int := 1
def HCSR04_RUNSTATE_RUNNING : Int := 2
def HCSR04_RUNSTATE_PAUSED : Int := 3
def HCSR04_RUNSTATE_STOPPED : Int := 4
def HCSR04_RUNSTATE_ENDED : Int := 5

def HCSR04_DISTANCE_UNDEF : Int := -1
def HCSR04_DISTANCE_RED_FROM : Int := 1
def HCSR04_DISTANCE_RED_TO : Int := 30
def HCSR04_DISTANCE_YELLOW_FROM : Int := 30
def HCSR04_DISTANCE_YELLOW_TO : Int := 50
def HCSR04_DISTANCE_GREEN_FROM : Int := 50
def HCSR04_DISTANCE_GREEN_TO : Int := 200

def HCSR04_NO_LED : Int := -1

def HCSR04_ERR_OK : Int := 0
def HCSR04_ERR_BASE : Int := -150
def HCSR04_ERR_NULLP : Int := HCSR04_ERR_BASE - 1
def HCSR04_ERR_RUNSTATE : Int := HCSR04_ERR_BASE - 2
def HCSR04_ERR_DISTANCES : Int := HCSR04_ERR_BASE - 3

/-! ## The platform interface (`Arduino.h`) -/

/-- Digital level of a pin, `LOW` or `HIGH` of `Arduino.h`. -/
inductive Level where
  | LOW
  | HIGH
deriving DecidableEq, Repr

/-- Direction of a pin, `INPUT` or `OUTPUT` of `Arduino.h`. -/
inductive PinMode where
  | INPUT
  | OUTPUT
deriving DecidableEq, Repr

def HCSR04_LED_ON : Level := Level.HIGH
def HCSR04_LED_OFF : Level := Level.LOW

/-- One call of a platform primitive, with its arguments. -/
inductive HwCall where
  | pinMode (pin : Int) (mode : PinMode)
  | digitalWrite (pin : Int) (level : Level)
  | delayMicroseconds (us : Int)
  | pulseIn (pin : Int) (level : Level)
deriving DecidableEq, Repr

/-- The platform calls made so far, oldest first. -/
abbrev Trace := List HwCall

def pinMode (hw : Trace) (pin : Int) (mode : PinMode) : Trace :=
  hw ++ [HwCall.pinMode pin mode]

def digitalWrite (hw : Trace) (pin : Int) (level : Level) : Trace :=
  hw ++ [HwCall.digitalWrite pin level]

def delayMicroseconds (hw : Trace) (us : Int) : Trace :=
  hw ++ [HwCall.delayMicroseconds us]

/-- The call of `pulseIn` is recorded; the duration it returns is supplied by
the caller of `HCSR04.ping`. -/
def pulseIn (hw : Trace) (pin : Int) (level : Level) : Trace :=
  hw ++ [HwCall.pulseIn pin level]

/-- The level a pin was last driven to by `digitalWrite`, `none` when the
trace holds no write to it. -/
def pinLevel : Trace → Int → Option Level
  | [], _ => none
  | c :: rest, pin =>
    match pinLevel rest pin with
    | some l => some l
    | none =>
      match c with
      | HwCall.digitalWrite p l => if p = pin then some l else none
      | _ => none

/-- The integer nearest to a rational, the even one of the two when it lies
halfway between them. -/
def roundHalfEven (y : ℚ) : Int :=
  let f := ⌊y⌋
  if y - f < 1 / 2 then f
  else if 1 / 2 < y - f then f + 1
  else if f % 2 = 0 then f else f + 1

/-- Rounding to a binary floating-point format with `p` significant bits: the
nearest number of the form `m * 2 ^ k` with `|m| < 2 ^ p`, ties to even.  The
exponent is not limited: the values rounded in this file (a `long`, the
constant `0.3432` and their product) are far inside the normal range of
binary32 and binary64. -/
def roundToPrecision (p : Nat) (x : ℚ) : ℚ :=
  if x = 0 then 0
  else
    let e := Int.log 2 |x|
    let ulp : ℚ := 2 ^ (e - p + 1)
    roundHalfEven (x / ulp) * ulp

/-- The `double` (binary64) nearest to a number: the value of a decimal
literal, of a `long` converted to `double`, and of a `double` operation. -/
def asDouble (x : ℚ) : ℚ := roundToPrecision 53 x

/-- The `float` (binary32) nearest to a number: a `double` assigned to a
`float`. -/
def asFloat (x : ℚ) : ℚ := roundToPrecision 24 x

/-- Storing an integer in a 16-bit `short`: the value with the same low 16
bits in the range -32768 .. 32767. -/
def wrapShort (t : Int) : Int := (t + 32768) % 65536 - 32768

/-- The conversion `(short) distance` of a `float`: the fractional part is
discarded and the integer is stored in 16 bits, as the compiled conversion does
for every distance `ping` computes from a 32-bit duration (beyond 32 bits the
targets differ; the low 16 bits are kept here too).  The conversion always
yields a value, so the result is never `none`. -/
def castShort (distance : ℚ) : Option Int :=
  let t := Int.tdiv distance.num (distance.den : Int)
  some (wrapShort t)

/-! ## The class `HCSR04` -/

/-- The data members of `class HCSR04`. -/
structure HCSR04 where
  _runState : Int
  _signal : Bool
  _pinTrigger : Int
  _pinEcho : Int
  _pinRedSignal : Int
  _pinYellowSignal : Int
  _pinGreenSignal : Int
  _rangeRedFrom : Int
  _rangeRedTo : Int
  _rangeYellowFrom : Int
  _rangeYellowTo : Int
  _rangeGreenFrom : Int
  _rangeGreenTo : Int
deriving DecidableEq, Repr

/-- Method `int HCSR04::pause(void)` -/
def HCSR04.pause (s : HCSR04) : Int × HCSR04 :=
  let s := { s with _runState := HCSR04_RUNSTATE_PAUSED }
  let retVal := s._runState
  (retVal, s)

/-- Method `int HCSR04::stop(void)` -/
def HCSR04.stop (s : HCSR04) : Int × HCSR04 :=
  let s := { s with _runState := HCSR04_RUNSTATE_STOPPED }
  let retVal := s._runState
  (retVal, s)

/-- Method `bool HCSR04::distancesSet( void )` -/
def HCSR04.distancesSet (s : HCSR04) : Bool :=
  if s._rangeRedFrom ≠ HCSR04_DISTANCE_UNDEF ∧ s._rangeRedFrom > 0 ∧
     s._rangeRedTo ≠ HCSR04_DISTANCE_UNDEF ∧ s._rangeRedTo > 0 ∧
     s._rangeYellowFrom ≠ HCSR04_DISTANCE_UNDEF ∧ s._rangeYellowFrom > 0 ∧
     s._rangeYellowTo ≠ HCSR04_DISTANCE_UNDEF ∧ s._rangeYellowTo > 0 ∧
     s._rangeGreenFrom ≠ HCSR04_DISTANCE_UNDEF ∧ s._rangeGreenFrom > 0 ∧
     s._rangeGreenTo ≠ HCSR04_DISTANCE_UNDEF ∧ s._rangeGreenTo > 0 then
    true
  else
    false

/-- Method `bool HCSR04::isInRange( short distance, short from, short to )` -/
def isInRange (distance from_ to_ : Int) : Bool :=
  if from_ ≤ to_ then
    if distance ≥ from_ ∧ distance ≤ to_ then true else false
  else
    if distance ≤ from_ ∧ distance ≥ to_ then true else false

/-- Method `void HCSR04::signalOn(void)` -/
def HCSR04.signalOn (s : HCSR04) : HCSR04 :=
  { s with _signal := s.distancesSet }

/-- Method `void HCSR04::signalOff(void)` -/
def HCSR04.signalOff (s : HCSR04) : HCSR04 :=
  { s with _signal := false }

/-- Method `bool HCSR04::signal(void)` -/
def HCSR04.signal (s : HCSR04) : Bool × HCSR04 :=
  (s._signal, s)

/-- Method `int HCSR04::run(void)` -/
def HCSR04.run (s : HCSR04) : Int × HCSR04 :=
  let s := s.signalOn
  let s := { s with _runState := HCSR04_RUNSTATE_RUNNING }
  let retVal := s._runState
  (retVal, s)

/-- Method `int HCSR04::setGreenRange( short from, short to )` -/
def HCSR04.setGreenRange (s : HCSR04) (from_ to_ : Int) : Int × HCSR04 :=
  let retVal := HCSR04_ERR_OK
  let s := { s with _rangeGreenFrom := from_ }
  let s := { s with _rangeGreenTo := to_ }
  (retVal, s)

/-- Method `int HCSR04::setYellowRange( short from, short to )` -/
def HCSR04.setYellowRange (s : HCSR04) (from_ to_ : Int) : Int × HCSR04 :=
  let retVal := HCSR04_ERR_OK
  let s := { s with _rangeYellowFrom := from_ }
  let s := { s with _rangeYellowTo := to_ }
  (retVal, s)

/-- Method `int HCSR04::setRedRange( short from, short to )` -/
def HCSR04.setRedRange (s : HCSR04) (from_ to_ : Int) : Int × HCSR04 :=
  let retVal := HCSR04_ERR_OK
  let s := { s with _rangeRedFrom := from_ }
  let s := { s with _rangeRedTo := to_ }
  (retVal, s)

/-- Method `void HCSR04::checkRange( float distance )`: the object is only read; the
result is the trace after the call (optional as `castShort` is). -/
def HCSR04.checkRange (s : HCSR04) (hw : Trace) (distance : ℚ) : Option Trace :=
  if s._signal then
    match castShort distance with
    | none => none
    | some checkValue =>
      if isInRange checkValue s._rangeRedFrom s._rangeRedTo then
        let hw := digitalWrite hw s._pinRedSignal HCSR04_LED_ON
        let hw := digitalWrite hw s._pinYellowSignal HCSR04_LED_OFF
        let hw := digitalWrite hw s._pinGreenSignal HCSR04_LED_OFF
        some hw
      else
        if isInRange checkValue s._rangeYellowFrom s._rangeYellowTo then
          let hw := digitalWrite hw s._pinRedSignal HCSR04_LED_OFF
          let hw := digitalWrite hw s._pinYellowSignal HCSR04_LED_ON
          let hw := digitalWrite hw s._pinGreenSignal HCSR04_LED_OFF
          some hw
        else
          if isInRange checkValue s._rangeGreenFrom s._rangeGreenTo then
            let hw := digitalWrite hw s._pinRedSignal HCSR04_LED_OFF
            let hw := digitalWrite hw s._pinYellowSignal HCSR04_LED_OFF
            let hw := digitalWrite hw s._pinGreenSignal HCSR04_LED_ON
            some hw
          else
            some hw
  else
    let hw := digitalWrite hw s._pinRedSignal HCSR04_LED_OFF
    let hw := digitalWrite hw s._pinYellowSignal HCSR04_LED_OFF
    let hw := digitalWrite hw s._pinGreenSignal HCSR04_LED_OFF
    some hw

/-- Method `float HCSR04::ping(void)`.  `echo` is the value the call of `pulseIn`
returns, as stored in `long duration`.  `duration/2` is the integer division of
C++ (toward zero).  In `(duration/2) * 0.3432` the quotient is converted to
`double`, `0.3432` is the `double` nearest to that decimal, the product is a
`double`, and the assignment to `float retVal` rounds it to binary32.  The
sentinel -152 is a `float` as it stands.  The result is the returned distance,
the object and the trace after the call. -/
def HCSR04.ping (s : HCSR04) (hw : Trace) (echo : Int) : Option (ℚ × HCSR04 × Trace) :=
  let (retVal, hw) : ℚ × Trace :=
    if s._runState = HCSR04_RUNSTATE_RUNNING then
      let hw := digitalWrite hw s._pinTrigger Level.LOW
      let hw := delayMicroseconds hw 2
      let hw := digitalWrite hw s._pinTrigger Level.HIGH
      let hw := delayMicroseconds hw 10
      let hw := digitalWrite hw s._pinTrigger Level.LOW
      let hw := pulseIn hw s._pinEcho Level.HIGH
      let duration := echo
      (asFloat (asDouble (asDouble ((Int.tdiv duration 2 : Int) : ℚ) * asDouble (3432 / 10000))),
        hw)
    else
      ((HCSR04_ERR_RUNSTATE : ℚ), hw)
  match s.checkRange hw retVal with
  | none => none
  | some hw => some (retVal, s, hw)

/-- The constructor `HCSR04::HCSR04( int triggerPin, int echoPin, int redPin,
int yellowPin, int greenPin )`.  `raw` is the object before any member is
assigned (its contents are indeterminate), `hw` the trace so far. -/
def HCSR04.ctor (raw : HCSR04) (hw : Trace)
    (triggerPin echoPin redPin yellowPin greenPin : Int) : HCSR04 × Trace :=
  let s := { raw with _pinTrigger := triggerPin }
  let hw := if s._pinTrigger ≠ HCSR04_NO_LED then pinMode hw s._pinTrigger PinMode.OUTPUT else hw
  let s := { s with _pinEcho := echoPin }
  let hw := if s._pinEcho ≠ HCSR04_NO_LED then pinMode hw s._pinEcho PinMode.INPUT else hw
  let s := { s with _pinRedSignal := redPin }
  let hw := if s._pinRedSignal ≠ HCSR04_NO_LED then pinMode hw s._pinRedSignal PinMode.OUTPUT else hw
  let s := { s with _pinYellowSignal := yellowPin }
  let hw := if s._pinYellowSignal ≠ HCSR04_NO_LED then pinMode hw s._pinYellowSignal PinMode.OUTPUT else hw
  let s := { s with _pinGreenSignal := greenPin }
  let hw := if s._pinGreenSignal ≠ HCSR04_NO_LED then pinMode hw s._pinGreenSignal PinMode.OUTPUT else hw
  let s := s.signalOff
  let s := (s.setGreenRange HCSR04_DISTANCE_GREEN_FROM HCSR04_DISTANCE_GREEN_TO).2
  let s := (s.setYellowRange HCSR04_DISTANCE_YELLOW_FROM HCSR04_DISTANCE_YELLOW_TO).2
  let s := (s.setRedRange HCSR04_DISTANCE_RED_FROM HCSR04_DISTANCE_RED_TO).2
  let s := s.signalOn
  let s := { s with _runState := HCSR04_RUNSTATE_CREATED }
  (s, hw)

/-! ## Vocabulary of the properties -/

/-- The three writes `checkRange` issues in one branch: red, yellow, green, in
that order, with the given levels. -/
def HCSR04.zoneWrites (s : HCSR04) (r y g : Level) : List HwCall :=
  [HwCall.digitalWrite s._pinRedSignal r,
   HwCall.digitalWrite s._pinYellowSignal y,
   HwCall.digitalWrite s._pinGreenSignal g]

/-- The levels of the red, yellow and green indicator pins after a trace. -/
def HCSR04.outputs (s : HCSR04) (hw : Trace) : Option Level × Option Level × Option Level :=
  (pinLevel hw s._pinRedSignal, pinLevel hw s._pinYellowSignal, pinLevel hw s._pinGreenSignal)

/-- The three indicators are wired to three different pins. -/
def HCSR04.distinctPins (s : HCSR04) : Prop :=
  s._pinRedSignal ≠ s._pinYellowSignal ∧ s._pinRedSignal ≠ s._pinGreenSignal ∧
    s._pinYellowSignal ≠ s._pinGreenSignal

instance (s : HCSR04) : Decidable s.distinctPins := by
  unfold HCSR04.distinctPins; infer_instance

/-- The zone bounds are red=(1,30), yellow=(30,50), green=(50,200). -/
def HCSR04.defaultBounds (s : HCSR04) : Prop :=
  s._rangeRedFrom = 1 ∧ s._rangeRedTo = 30 ∧ s._rangeYellowFrom = 30 ∧ s._rangeYellowTo = 50 ∧
    s._rangeGreenFrom = 50 ∧ s._rangeGreenTo = 200

instance (s : HCSR04) : Decidable s.defaultBounds := by
  unfold HCSR04.defaultBounds; infer_instance

/-- An object whose members hold arbitrary values, as before construction. -/
def rawObject : HCSR04 :=
  { _runState := 7, _signal := true, _pinTrigger := 9, _pinEcho := 9,
    _pinRedSignal := 9, _pinYellowSignal := 9, _pinGreenSignal := 9,
    _rangeRedFrom := -5, _rangeRedTo := 0, _rangeYellowFrom := 12, _rangeYellowTo := -1,
    _rangeGreenFrom := 0, _rangeGreenTo := 3 }

/-- A driver constructed with trigger 2, echo 3 and indicators on pins 4, 5, 6. -/
def demo : HCSR04 := (HCSR04.ctor rawObject [] 2 3 4 5 6).1

/-- The demo driver after `run()`. -/
def demoRunning : HCSR04 := demo.run.2

/-- A driver constructed with trigger 2, echo 3 and no indicator pins. -/
def demoNoLed : HCSR04 :=
  (HCSR04.ctor rawObject [] 2 3 HCSR04_NO_LED HCSR04_NO_LED HCSR04_NO_LED).1

/-- The hardware calls `ping` makes in the Running branch, in program order. -/
def HCSR04.triggerSequence (s : HCSR04) : List HwCall :=
  [HwCall.digitalWrite s._pinTrigger Level.LOW,
   HwCall.delayMicroseconds 2,
   HwCall.digitalWrite s._pinTrigger Level.HIGH,
   HwCall.delayMicroseconds 10,
   HwCall.digitalWrite s._pinTrigger Level.LOW,
   HwCall.pulseIn s._pinEcho Level.HIGH]

/-- The `float` the code computes by `retVal = (duration/2) * 0.3432` for an
echo duration: the same expression as in `HCSR04.ping`. -/
def distanceOf (duration : Int) : ℚ :=
  asFloat (asDouble (asDouble ((Int.tdiv duration 2 : Int) : ℚ) * asDouble (3432 / 10000)))

/-- A call of one public method of the class, with its arguments; for `ping`
the argument is the duration `pulseIn` reports during the call. -/
inductive Op where
  | pause
  | run
  | stop
  | ping (echo : Int)
  | setRedRange (from_ to_ : Int)
  | setYellowRange (from_ to_ : Int)
  | setGreenRange (from_ to_ : Int)
  | signalOn
  | signalOff
  | signal
deriving DecidableEq, Repr

/-- The object and the trace after one method call; `none` when the call has
no defined behaviour. -/
def HCSR04.step (s : HCSR04) (hw : Trace) : Op → Option (HCSR04 × Trace)
  | Op.pause => some (s.pause.2, hw)
  | Op.run => some (s.run.2, hw)
  | Op.stop => some (s.stop.2, hw)
  | Op.ping echo =>
    match s.ping hw echo with
    | none => none
    | some r => some (r.2.1, r.2.2)
  | Op.setRedRange from_ to_ => some ((s.setRedRange from_ to_).2, hw)
  | Op.setYellowRange from_ to_ => some ((s.setYellowRange from_ to_).2, hw)
  | Op.setGreenRange from_ to_ => some ((s.setGreenRange from_ to_).2, hw)
  | Op.signalOn => some (s.signalOn, hw)
  | Op.signalOff => some (s.signalOff, hw)
  | Op.signal => some (s.signal.2, hw)

/-- The object and the trace after a sequence of method calls, first call
first. -/
def runOps : HCSR04 × Trace → List Op → Option (HCSR04 × Trace)
  | w, [] => some w
  | w, op :: ops =>
    match w.1.step w.2 op with
    | none => none
    | some w1 => runOps w1 ops

/-- The call is not a range setter that is given an undefined or non-positive
bound while signalling is enabled. -/
def Op.keepsFlagSound (s : HCSR04) : Op → Bool
  | Op.setRedRange from_ to_ => !s._signal || (decide (0 < from_) && decide (0 < to_))
  | Op.setYellowRange from_ to_ => !s._signal || (decide (0 < from_) && decide (0 < to_))
  | Op.setGreenRange from_ to_ => !s._signal || (decide (0 < from_) && decide (0 < to_))
  | _ => true

/-- Every call of the sequence satisfies `Op.keepsFlagSound` in the state it is
made in. -/
def flagSoundRun : HCSR04 × Trace → List Op → Bool
  | _, [] => true
  | w, op :: ops =>
    op.keepsFlagSound w.1 &&
      match w.1.step w.2 op with
      | none => true
      | some w1 => flagSoundRun w1 ops

/-- The call is part of the trigger and echo sequence of `ping`: a write to the
trigger pin, a delay, or a pulse read. -/
def HCSR04.isTriggerStep (s : HCSR04) : HwCall → Bool
  | HwCall.digitalWrite p _ => p = s._pinTrigger
  | HwCall.delayMicroseconds _ => true
  | HwCall.pulseIn _ _ => true
  | HwCall.pinMode _ _ => false

/-- The call is one of `pause`, `run`, `stop`. -/
def Op.isLifecycle : Op → Bool
  | Op.pause => true
  | Op.run => true
  | Op.stop => true
  | _ => false

/-- The call is one of the three range setters. -/
def Op.isRangeSetter : Op → Bool
  | Op.setRedRange _ _ => true
  | Op.setYellowRange _ _ => true
  | Op.setGreenRange _ _ => true
  | _ => false

/-- The six zone bounds of an object. -/
def HCSR04.bounds (s : HCSR04) : Int × Int × Int × Int × Int × Int :=
  (s._rangeRedFrom, s._rangeRedTo, s._rangeYellowFrom, s._rangeYellowTo,
    s._rangeGreenFrom, s._rangeGreenTo)

/-- The five pin assignments of an object. -/
def HCSR04.pins (s : HCSR04) : Int × Int × Int × Int × Int :=
  (s._pinTrigger, s._pinEcho, s._pinRedSignal, s._pinYellowSignal, s._pinGreenSignal)

/-- The call is a `pinMode` or a `digitalWrite` on the given pin. -/
def HwCall.targets (pin : Int) : HwCall → Bool
  | HwCall.pinMode p _ => p = pin
  | HwCall.digitalWrite p _ => p = pin
  | _ => false

/-- The signalling flag is set only when `distancesSet()` holds. -/
def HCSR04.flagSound (s : HCSR04) : Prop :=
  s._signal = true → s.distancesSet = true

/-- Truncation of a rational toward zero: the floor of a non-negative number,
the ceiling of a negative one. -/
def truncTowardZero (d : ℚ) : Int :=
  if 0 ≤ d then ⌊d⌋ else ⌈d⌉

/-- The value `checkRange` compares with the zone bounds: the distance without
its fractional part, stored in a `short`. -/
def checkValue (distance : ℚ) : Int := wrapShort (truncTowardZero distance)

/-- The constructor's `pinMode` calls for the given pin arguments, in program
order: one for each pin that is not `HCSR04_NO_LED`. -/
def ctorCalls (triggerPin echoPin redPin yellowPin greenPin : Int) : List HwCall :=
  (if triggerPin ≠ HCSR04_NO_LED then [HwCall.pinMode triggerPin PinMode.OUTPUT] else []) ++
  (if echoPin ≠ HCSR04_NO_LED then [HwCall.pinMode echoPin PinMode.INPUT] else []) ++
  (if redPin ≠ HCSR04_NO_LED then [HwCall.pinMode redPin PinMode.OUTPUT] else []) ++
  (if yellowPin ≠ HCSR04_NO_LED then [HwCall.pinMode yellowPin PinMode.OUTPUT] else []) ++
  (if greenPin ≠ HCSR04_NO_LED then [HwCall.pinMode greenPin PinMode.OUTPUT] else [])

/-- The call is a `digitalWrite`. -/
def HwCall.isWrite : HwCall → Bool
  | HwCall.digitalWrite _ _ => true
  | _ => false

/-! ## Auxiliary facts -/

theorem pinLevel_append_write (hw : Trace) (p pin : Int) (l : Level) :
    pinLevel (hw ++ [HwCall.digitalWrite p l]) pin =
      if p = pin then some l else pinLevel hw pin := by
  induction hw with
  | nil => simp [pinLevel]
  | cons a rest ih =>
    have hc : pinLevel (a :: (rest ++ [HwCall.digitalWrite p l])) pin =
        match pinLevel (rest ++ [HwCall.digitalWrite p l]) pin with
        | some l => some l
        | none =>
          match a with
          | HwCall.digitalWrite p l => if p = pin then some l else none
          | _ => none := rfl
    rw [List.cons_append, hc, ih]
    simp only [pinLevel]
    by_cases hp : p = pin
    · simp [hp]
    · simp [hp]

theorem pinLevel_digitalWrite (hw : Trace) (p pin : Int) (l : Level) :
    pinLevel (digitalWrite hw p l) pin = if p = pin then some l else pinLevel hw pin := by
  simp [digitalWrite, pinLevel_append_write]

theorem checkRange_enabled (s : HCSR04) (hw : Trace) (distance : ℚ) (v : Int)
    (hsig : s._signal = true) (hv : castShort distance = some v) :
    s.checkRange hw distance = some
      (if isInRange v s._rangeRedFrom s._rangeRedTo then
        hw ++ s.zoneWrites HCSR04_LED_ON HCSR04_LED_OFF HCSR04_LED_OFF
      else if isInRange v s._rangeYellowFrom s._rangeYellowTo then
        hw ++ s.zoneWrites HCSR04_LED_OFF HCSR04_LED_ON HCSR04_LED_OFF
      else if isInRange v s._rangeGreenFrom s._rangeGreenTo then
        hw ++ s.zoneWrites HCSR04_LED_OFF HCSR04_LED_OFF HCSR04_LED_ON
      else hw) := by
  unfold HCSR04.checkRange
  simp only [hsig, hv, if_true, digitalWrite, HCSR04.zoneWrites, List.append_assoc,
    List.singleton_append]
  split_ifs <;> rfl

theorem outputs_zoneWrites (s : HCSR04) (hw : Trace) (r y g : Level) (hd : s.distinctPins) :
    s.outputs (hw ++ s.zoneWrites r y g) = (some r, some y, some g) := by
  obtain ⟨hry, hrg, hyg⟩ := hd
  have e : hw ++ s.zoneWrites r y g =
      digitalWrite (digitalWrite (digitalWrite hw s._pinRedSignal r) s._pinYellowSignal y)
        s._pinGreenSignal g := by
    simp [digitalWrite, HCSR04.zoneWrites]
  rw [e]
  simp only [HCSR04.outputs, pinLevel_digitalWrite]
  simp [hry, hrg, hyg, Ne.symm hry, Ne.symm hrg, Ne.symm hyg]

theorem runstate_error_value : ((HCSR04_ERR_RUNSTATE : Int) : ℚ) = -152 := by
  norm_num [HCSR04_ERR_RUNSTATE, HCSR04_ERR_BASE]

theorem castShort_runstate_error : castShort (-152) = some (-152) := by decide

theorem ping_of_not_running (s : HCSR04) (hw hw' : Trace) (echo : Int)
    (hrun : s._runState ≠ HCSR04_RUNSTATE_RUNNING)
    (hc : s.checkRange hw (-152) = some hw') :
    s.ping hw echo = some (-152, s, hw') := by
  unfold HCSR04.ping
  simp only [hrun, if_false, runstate_error_value, hc]

theorem checkRange_disabled (s : HCSR04) (hw : Trace) (distance : ℚ)
    (hsig : s._signal = false) :
    s.checkRange hw distance
      = some (hw ++ s.zoneWrites HCSR04_LED_OFF HCSR04_LED_OFF HCSR04_LED_OFF) := by
  unfold HCSR04.checkRange
  simp only [hsig, Bool.false_eq_true, if_false, digitalWrite, HCSR04.zoneWrites,
    List.append_assoc, List.singleton_append]
  rfl

theorem checkRange_total_of_cast (s : HCSR04) (hw : Trace) (distance : ℚ) (v : Int)
    (hv : castShort distance = some v) : ∃ hw', s.checkRange hw distance = some hw' := by
  cases hsig : s._signal with
  | true => exact ⟨_, checkRange_enabled s hw distance v hsig hv⟩
  | false => exact ⟨_, checkRange_disabled s hw distance hsig⟩

theorem distancesSet_of_positive (s : HCSR04)
    (h : 0 < s._rangeRedFrom ∧ 0 < s._rangeRedTo ∧ 0 < s._rangeYellowFrom ∧
      0 < s._rangeYellowTo ∧ 0 < s._rangeGreenFrom ∧ 0 < s._rangeGreenTo) :
    s.distancesSet = true := by
  unfold HCSR04.distancesSet HCSR04_DISTANCE_UNDEF
  split_ifs with hc
  · rfl
  · exfalso; apply hc; omega

theorem distancesSet_of_nonpositive (s : HCSR04)
    (h : s._rangeRedFrom ≤ 0 ∨ s._rangeRedTo ≤ 0 ∨ s._rangeYellowFrom ≤ 0 ∨
      s._rangeYellowTo ≤ 0 ∨ s._rangeGreenFrom ≤ 0 ∨ s._rangeGreenTo ≤ 0) :
    s.distancesSet = false := by
  unfold HCSR04.distancesSet
  split_ifs with hc
  · exfalso; omega
  · rfl

theorem distancesSet_congr (s t : HCSR04)
    (h1 : t._rangeRedFrom = s._rangeRedFrom) (h2 : t._rangeRedTo = s._rangeRedTo)
    (h3 : t._rangeYellowFrom = s._rangeYellowFrom) (h4 : t._rangeYellowTo = s._rangeYellowTo)
    (h5 : t._rangeGreenFrom = s._rangeGreenFrom) (h6 : t._rangeGreenTo = s._rangeGreenTo) :
    t.distancesSet = s.distancesSet := by
  unfold HCSR04.distancesSet
  rw [h1, h2, h3, h4, h5, h6]

/-! ## The properties -/

/-- C1: with signalling enabled, `checkRange` tests red, then yellow, then green
on the check value `v = (short) distance`, and the first zone containing `v`
wins.  If red contains `v` the writes issued are red on, yellow off, green off,
whatever yellow and green contain; otherwise if yellow contains `v` they are
off, on, off, whatever green contains; otherwise if green contains `v` they are
off, off, on.  With three different indicator pins these are the levels of the
outputs after the call.  With red=(1,30), yellow=(30,50), green=(50,200) the
value 25 lights red, 40 lights yellow and the shared boundary 30 lights red. -/
theorem checkRange_zone_priority (s : HCSR04) (hw : Trace) (distance : ℚ) (v : Int)
    (hsig : s._signal = true) (hv : castShort distance = some v) :
    (isInRange v s._rangeRedFrom s._rangeRedTo = true →
      s.checkRange hw distance
          = some (hw ++ s.zoneWrites HCSR04_LED_ON HCSR04_LED_OFF HCSR04_LED_OFF) ∧
        (s.distinctPins → (s.checkRange hw distance).map s.outputs
          = some (some HCSR04_LED_ON, some HCSR04_LED_OFF, some HCSR04_LED_OFF))) ∧
    (isInRange v s._rangeRedFrom s._rangeRedTo = false →
      isInRange v s._rangeYellowFrom s._rangeYellowTo = true →
      s.checkRange hw distance
          = some (hw ++ s.zoneWrites HCSR04_LED_OFF HCSR04_LED_ON HCSR04_LED_OFF) ∧
        (s.distinctPins → (s.checkRange hw distance).map s.outputs
          = some (some HCSR04_LED_OFF, some HCSR04_LED_ON, some HCSR04_LED_OFF))) ∧
    (isInRange v s._rangeRedFrom s._rangeRedTo = false →
      isInRange v s._rangeYellowFrom s._rangeYellowTo = false →
      isInRange v s._rangeGreenFrom s._rangeGreenTo = true →
      s.checkRange hw distance
          = some (hw ++ s.zoneWrites HCSR04_LED_OFF HCSR04_LED_OFF HCSR04_LED_ON) ∧
        (s.distinctPins → (s.checkRange hw distance).map s.outputs
          = some (some HCSR04_LED_OFF, some HCSR04_LED_OFF, some HCSR04_LED_ON))) ∧
    (s.defaultBounds →
      s.checkRange hw 25
          = some (hw ++ s.zoneWrites HCSR04_LED_ON HCSR04_LED_OFF HCSR04_LED_OFF) ∧
      s.checkRange hw 40
          = some (hw ++ s.zoneWrites HCSR04_LED_OFF HCSR04_LED_ON HCSR04_LED_OFF) ∧
      s.checkRange hw 30
          = some (hw ++ s.zoneWrites HCSR04_LED_ON HCSR04_LED_OFF HCSR04_LED_OFF)) := by
  have key := checkRange_enabled s hw distance v hsig hv
  refine ⟨?_, ?_, ?_, ?_⟩
  · intro hr
    rw [key]
    simp only [hr, if_true, Option.map_some']
    exact ⟨trivial, fun hd => by rw [outputs_zoneWrites s hw _ _ _ hd]⟩
  · intro hr hy
    rw [key]
    simp only [hr, hy, if_true, Bool.false_eq_true, if_false, Option.map_some']
    exact ⟨trivial, fun hd => by rw [outputs_zoneWrites s hw _ _ _ hd]⟩
  · intro hr hy hg
    rw [key]
    simp only [hr, hy, hg, if_true, Bool.false_eq_true, if_false, Option.map_some']
    exact ⟨trivial, fun hd => by rw [outputs_zoneWrites s hw _ _ _ hd]⟩
  · rintro ⟨h1, h2, h3, h4, h5, h6⟩
    refine ⟨?_, ?_, ?_⟩
    · rw [checkRange_enabled s hw 25 25 hsig (by decide), h1, h2]
      simp only [show isInRange 25 1 30 = true by decide, if_true]
    · rw [checkRange_enabled s hw 40 40 hsig (by decide), h1, h2, h3, h4]
      simp only [show isInRange 40 1 30 = false by decide,
        show isInRange 40 30 50 = true by decide, if_true, Bool.false_eq_true, if_false]
    · rw [checkRange_enabled s hw 30 30 hsig (by decide), h1, h2]
      simp only [show isInRange 30 1 30 = true by decide, if_true]

/-- Witness of C1 at the demo driver: the value 30 lies in red and in yellow,
and red is lit. -/
theorem checkRange_zone_priority_witness :
    demo._signal = true ∧ castShort 30 = some 30 ∧
      isInRange 30 demo._rangeRedFrom demo._rangeRedTo = true ∧
      isInRange 30 demo._rangeYellowFrom demo._rangeYellowTo = true ∧
      demo.checkRange [] 30
        = some ([] ++ demo.zoneWrites HCSR04_LED_ON HCSR04_LED_OFF HCSR04_LED_OFF) :=
  ⟨by decide, by decide, by decide, by decide,
    ((checkRange_zone_priority demo [] 30 30 (by decide) (by decide)).1 (by decide)).1⟩

/-- C2: when the run state is not Running, `ping` returns exactly the sentinel
`HCSR04_ERR_RUNSTATE` = -152 and leaves the trace that `checkRange` produces for
the distance -152 (which always is defined); with signalling enabled a red zone
containing -152 is lit.  After construction, `run()` and `pause()`, `ping`
returns the sentinel. -/
theorem ping_not_running_returns_sentinel (s : HCSR04) (hw : Trace) (echo : Int)
    (hrun : s._runState ≠ HCSR04_RUNSTATE_RUNNING) :
    HCSR04_ERR_RUNSTATE = -152 ∧
    (∃ hw', s.checkRange hw (-152) = some hw' ∧
      s.ping hw echo = some (-152, s, hw') ∧
      (s._signal = true → isInRange (-152) s._rangeRedFrom s._rangeRedTo = true →
        hw' = hw ++ s.zoneWrites HCSR04_LED_ON HCSR04_LED_OFF HCSR04_LED_OFF)) ∧
    (∀ (raw : HCSR04) (hw0 : Trace) (triggerPin echoPin redPin yellowPin greenPin : Int),
      ∃ p, (((HCSR04.ctor raw hw0 triggerPin echoPin redPin yellowPin greenPin).1.run).2.pause).2.ping
          hw echo = some p ∧ p.1 = -152) := by
  refine ⟨by decide, ?_, ?_⟩
  · obtain ⟨hw', hc⟩ := checkRange_total_of_cast s hw (-152) (-152) castShort_runstate_error
    refine ⟨hw', hc, ping_of_not_running s hw hw' echo hrun hc, ?_⟩
    intro hsig hr
    have key := checkRange_enabled s hw (-152) (-152) hsig castShort_runstate_error
    rw [hc, hr] at key
    simpa using key
  · intro raw hw0 t e r y g
    obtain ⟨hw', hc⟩ := checkRange_total_of_cast
      (((HCSR04.ctor raw hw0 t e r y g).1.run).2.pause).2 hw (-152) (-152)
      castShort_runstate_error
    exact ⟨_, ping_of_not_running _ hw hw' echo
      (by simp [HCSR04.pause, HCSR04_RUNSTATE_PAUSED, HCSR04_RUNSTATE_RUNNING]) hc, rfl⟩

/-- Witness of C2: the freshly constructed demo driver is in state Created. -/
theorem ping_not_running_returns_sentinel_witness :
    demo._runState ≠ HCSR04_RUNSTATE_RUNNING ∧
      ∃ hw', demo.checkRange [] (-152) = some hw' ∧
        demo.ping [] 1000 = some (-152, demo, hw') ∧
        (demo._signal = true → isInRange (-152) demo._rangeRedFrom demo._rangeRedTo = true →
          hw' = [] ++ demo.zoneWrites HCSR04_LED_ON HCSR04_LED_OFF HCSR04_LED_OFF) :=
  ⟨by decide, (ping_not_running_returns_sentinel demo [] 1000 (by decide)).2.1⟩

/-- C3: `isInRange v from to` holds exactly when `min from to ≤ v ≤ max from to`;
it is symmetric in the two bounds, both endpoints match, and with the inverted
bounds (50, 10) the value 30 matches. -/
theorem isInRange_iff_between (v from_ to_ : Int) :
    (isInRange v from_ to_ = true ↔ min from_ to_ ≤ v ∧ v ≤ max from_ to_) ∧
    isInRange v from_ to_ = isInRange v to_ from_ ∧
    isInRange from_ from_ to_ = true ∧
    isInRange to_ from_ to_ = true ∧
    isInRange 30 50 10 = true := by
  have hiff : ∀ a b : Int, isInRange v a b = true ↔ min a b ≤ v ∧ v ≤ max a b := by
    intro a b
    unfold isInRange
    by_cases h : a ≤ b
    · simp only [h, if_true, ge_iff_le, min_eq_left h, max_eq_right h]
      split_ifs with h2 <;> simp_all
    · have h' : b ≤ a := by omega
      simp only [h, if_false, ge_iff_le, min_eq_right h', max_eq_left h']
      split_ifs with h2
      · simp only [true_iff]; exact ⟨h2.2, h2.1⟩
      · simp only [Bool.false_eq_true, false_iff]; exact fun hc => h2 ⟨hc.2, hc.1⟩
  refine ⟨hiff from_ to_, ?_, ?_, ?_, by decide⟩
  · have h1 := hiff from_ to_
    have h2 := hiff to_ from_
    rw [min_comm, max_comm] at h2
    have h3 : isInRange v from_ to_ = true ↔ isInRange v to_ from_ = true := h1.trans h2.symm
    cases ha : isInRange v from_ to_ <;> cases hb : isInRange v to_ from_
    · rfl
    · rw [ha, hb] at h3; exact absurd (h3.2 rfl) (by decide)
    · rw [ha, hb] at h3; exact absurd (h3.1 rfl) (by decide)
    · rfl
  · unfold isInRange
    by_cases h : from_ ≤ to_
    · simp [h]
    · simp [h]; omega
  · unfold isInRange
    by_cases h : from_ ≤ to_
    · simp [h]
    · simp [h]; omega

/-- C4: `distancesSet()` is true exactly when each of the six bounds differs from
the undefined sentinel -1 and is strictly positive; a single bound that is -1, 0
or negative makes it false, whatever the other five are. -/
theorem distancesSet_iff_all_defined_positive (s : HCSR04) :
    HCSR04_DISTANCE_UNDEF = -1 ∧
    (s.distancesSet = true ↔
      (s._rangeRedFrom ≠ -1 ∧ 0 < s._rangeRedFrom) ∧
      (s._rangeRedTo ≠ -1 ∧ 0 < s._rangeRedTo) ∧
      (s._rangeYellowFrom ≠ -1 ∧ 0 < s._rangeYellowFrom) ∧
      (s._rangeYellowTo ≠ -1 ∧ 0 < s._rangeYellowTo) ∧
      (s._rangeGreenFrom ≠ -1 ∧ 0 < s._rangeGreenFrom) ∧
      (s._rangeGreenTo ≠ -1 ∧ 0 < s._rangeGreenTo)) ∧
    (s._rangeRedFrom ≤ 0 ∨ s._rangeRedTo ≤ 0 ∨ s._rangeYellowFrom ≤ 0 ∨
      s._rangeYellowTo ≤ 0 ∨ s._rangeGreenFrom ≤ 0 ∨ s._rangeGreenTo ≤ 0 →
      s.distancesSet = false) := by
  refine ⟨rfl, ?_, ?_⟩
  · unfold HCSR04.distancesSet HCSR04_DISTANCE_UNDEF
    split_ifs with h
    · simp only [true_iff]
      obtain ⟨a1, a2, b1, b2, c1, c2, d1, d2, e1, e2, f1, f2⟩ := h
      exact ⟨⟨a1, a2⟩, ⟨b1, b2⟩, ⟨c1, c2⟩, ⟨d1, d2⟩, ⟨e1, e2⟩, ⟨f1, f2⟩⟩
    · simp only [Bool.false_eq_true, false_iff]
      rintro ⟨⟨a1, a2⟩, ⟨b1, b2⟩, ⟨c1, c2⟩, ⟨d1, d2⟩, ⟨e1, e2⟩, ⟨f1, f2⟩⟩
      exact h ⟨a1, a2, b1, b2, c1, c2, d1, d2, e1, e2, f1, f2⟩
  · intro h
    unfold HCSR04.distancesSet
    split_ifs with hc
    · exfalso; omega
    · rfl

/-- Witness of C4: the demo driver with its yellow upper bound set to 0. -/
theorem distancesSet_iff_all_defined_positive_witness :
    (demo.setYellowRange 30 0).2._rangeYellowTo ≤ 0 ∧
      (demo.setYellowRange 30 0).2.distancesSet = false :=
  ⟨by decide, (distancesSet_iff_all_defined_positive (demo.setYellowRange 30 0).2).2.2
    (Or.inr (Or.inr (Or.inr (Or.inl (by decide)))))⟩

/-- C5: from every prior state `pause()` sets and returns Paused, `run()` sets
and returns Running, `stop()` sets and returns Stopped; each is defined on every
state, and calling one twice gives the same result and state as calling it
once. -/
theorem lifecycle_unconditional_idempotent (s : HCSR04) :
    (s.pause.1 = HCSR04_RUNSTATE_PAUSED ∧ s.pause.2._runState = HCSR04_RUNSTATE_PAUSED ∧
      s.pause.2.pause = s.pause) ∧
    (s.run.1 = HCSR04_RUNSTATE_RUNNING ∧ s.run.2._runState = HCSR04_RUNSTATE_RUNNING ∧
      s.run.2.run = s.run) ∧
    (s.stop.1 = HCSR04_RUNSTATE_STOPPED ∧ s.stop.2._runState = HCSR04_RUNSTATE_STOPPED ∧
      s.stop.2.stop = s.stop) := by
  refine ⟨⟨rfl, rfl, rfl⟩, ⟨rfl, rfl, ?_⟩, ⟨rfl, rfl, rfl⟩⟩
  simp [HCSR04.run, HCSR04.signalOn, HCSR04.distancesSet]

/-- C6: whatever the pin arguments (and whatever the object and the trace held
before), after construction the run state is Created, the bounds are
red=(1,30), yellow=(30,50), green=(50,200), and `signal()` returns true; so for
trigger 2, echo 3 and no indicator pins. -/
theorem ctor_postcondition (raw : HCSR04) (hw : Trace)
    (triggerPin echoPin redPin yellowPin greenPin : Int) :
    let s := (HCSR04.ctor raw hw triggerPin echoPin redPin yellowPin greenPin).1
    (s._runState = HCSR04_RUNSTATE_CREATED ∧
      s._rangeRedFrom = 1 ∧ s._rangeRedTo = 30 ∧
      s._rangeYellowFrom = 30 ∧ s._rangeYellowTo = 50 ∧
      s._rangeGreenFrom = 50 ∧ s._rangeGreenTo = 200 ∧
      s.signal.1 = true) ∧
    (let s0 := (HCSR04.ctor raw hw 2 3 HCSR04_NO_LED HCSR04_NO_LED HCSR04_NO_LED).1
     s0._runState = HCSR04_RUNSTATE_CREATED ∧ s0.signal.1 = true) := by
  refine ⟨⟨rfl, rfl, rfl, rfl, rfl, rfl, rfl, ?_⟩, rfl, ?_⟩ <;>
    simp [HCSR04.ctor, HCSR04.signal, HCSR04.signalOn, HCSR04.signalOff, HCSR04.distancesSet,
      HCSR04.setGreenRange, HCSR04.setYellowRange, HCSR04.setRedRange,
      HCSR04_DISTANCE_UNDEF, HCSR04_DISTANCE_RED_FROM, HCSR04_DISTANCE_RED_TO,
      HCSR04_DISTANCE_YELLOW_FROM, HCSR04_DISTANCE_YELLOW_TO, HCSR04_DISTANCE_GREEN_FROM,
      HCSR04_DISTANCE_GREEN_TO]

/-- C7: after `signalOff()`, `signal()` returns false; after `signalOn()` it
returns the value of `distancesSet()` on the (unchanged) bounds, so
`signalOff()` then `signalOn()` gives true when all six bounds are defined and
positive, and false when one of them is undefined or not positive; `signal()`
leaves the object as it was. -/
theorem signal_flag_control (s : HCSR04) :
    s.signalOff.signal.1 = false ∧
    s.signalOn.signal.1 = s.distancesSet ∧
    s.signalOn.signal.1 = s.signalOn.distancesSet ∧
    (0 < s._rangeRedFrom ∧ 0 < s._rangeRedTo ∧ 0 < s._rangeYellowFrom ∧
      0 < s._rangeYellowTo ∧ 0 < s._rangeGreenFrom ∧ 0 < s._rangeGreenTo →
      s.signalOff.signalOn.signal.1 = true) ∧
    (s._rangeRedFrom ≤ 0 ∨ s._rangeRedTo ≤ 0 ∨ s._rangeYellowFrom ≤ 0 ∨
      s._rangeYellowTo ≤ 0 ∨ s._rangeGreenFrom ≤ 0 ∨ s._rangeGreenTo ≤ 0 →
      s.signalOff.signalOn.signal.1 = false) ∧
    s.signal.2 = s := by
  have hoff : s.signalOff.distancesSet = s.distancesSet :=
    distancesSet_congr s s.signalOff rfl rfl rfl rfl rfl rfl
  refine ⟨rfl, rfl, ?_, ?_, ?_, rfl⟩
  · exact (distancesSet_congr s s.signalOn rfl rfl rfl rfl rfl rfl).symm
  · intro h
    show s.signalOff.distancesSet = true
    rw [hoff]; exact distancesSet_of_positive s h
  · intro h
    show s.signalOff.distancesSet = false
    rw [hoff]; exact distancesSet_of_nonpositive s h

/-- Witness of C7: on the demo driver all bounds are positive, and signalling
comes back after `signalOff()`, `signalOn()`. -/
theorem signal_flag_control_witness :
    (0 < demo._rangeRedFrom ∧ 0 < demo._rangeRedTo ∧ 0 < demo._rangeYellowFrom ∧
      0 < demo._rangeYellowTo ∧ 0 < demo._rangeGreenFrom ∧ 0 < demo._rangeGreenTo) ∧
      demo.signalOff.signalOn.signal.1 = true :=
  ⟨by decide, (signal_flag_control demo).2.2.2.1 (by decide)⟩

/-- C8: after `run()` the signalling flag equals `distancesSet()` on the
(unchanged) bounds, whatever it was before, and `run()` returns Running: after
`signalOff()` with all bounds positive it is enabled again, with an undefined or
non-positive bound it is disabled. -/
theorem run_reevaluates_signal (s : HCSR04) :
    s.run.2._signal = s.distancesSet ∧
    s.run.2._signal = s.run.2.distancesSet ∧
    s.run.1 = HCSR04_RUNSTATE_RUNNING ∧
    (0 < s._rangeRedFrom ∧ 0 < s._rangeRedTo ∧ 0 < s._rangeYellowFrom ∧
      0 < s._rangeYellowTo ∧ 0 < s._rangeGreenFrom ∧ 0 < s._rangeGreenTo →
      s.signalOff._signal = false ∧ s.signalOff.run.2._signal = true ∧
        s.signalOff.run.1 = HCSR04_RUNSTATE_RUNNING) ∧
    (s._rangeRedFrom ≤ 0 ∨ s._rangeRedTo ≤ 0 ∨ s._rangeYellowFrom ≤ 0 ∨
      s._rangeYellowTo ≤ 0 ∨ s._rangeGreenFrom ≤ 0 ∨ s._rangeGreenTo ≤ 0 →
      s.run.2._signal = false ∧ s.run.1 = HCSR04_RUNSTATE_RUNNING) := by
  refine ⟨rfl, ?_, rfl, ?_, ?_⟩
  · exact (distancesSet_congr s s.run.2 rfl rfl rfl rfl rfl rfl).symm
  · intro h
    refine ⟨rfl, ?_, rfl⟩
    show s.signalOff.distancesSet = true
    rw [distancesSet_congr s s.signalOff rfl rfl rfl rfl rfl rfl]
    exact distancesSet_of_positive s h
  · intro h
    exact ⟨distancesSet_of_nonpositive s h, rfl⟩

/-- Witness of C8: the demo driver with its green lower bound undefined (-1) and
the flag still set from construction; `run()` clears the flag. -/
theorem run_reevaluates_signal_witness :
    (demo.setGreenRange (-1) 200).2._signal = true ∧
      (demo.setGreenRange (-1) 200).2._rangeGreenFrom ≤ 0 ∧
      (demo.setGreenRange (-1) 200).2.run.2._signal = false ∧
      (demo.setGreenRange (-1) 200).2.run.1 = HCSR04_RUNSTATE_RUNNING :=
  ⟨by decide, by decide,
    (run_reevaluates_signal (demo.setGreenRange (-1) 200).2).2.2.2.2
      (Or.inr (Or.inr (Or.inr (Or.inr (Or.inl (by decide))))))⟩

/-- C9: for every pair (from, to), each of `setRedRange`, `setYellowRange`,
`setGreenRange` returns `HCSR04_ERR_OK` = 0 and changes the object only in its
own zone's two bounds, which become exactly (from, to): the other zones, the run
state, the signalling flag and the pins are as before. -/
theorem setRange_stores_pair_only (s : HCSR04) (from_ to_ : Int) :
    HCSR04_ERR_OK = 0 ∧
    (s.setRedRange from_ to_
        = (HCSR04_ERR_OK, { s with _rangeRedFrom := from_, _rangeRedTo := to_ }) ∧
      (s.setRedRange from_ to_).2._signal = s._signal ∧
      (s.setRedRange from_ to_).2._runState = s._runState) ∧
    (s.setYellowRange from_ to_
        = (HCSR04_ERR_OK, { s with _rangeYellowFrom := from_, _rangeYellowTo := to_ }) ∧
      (s.setYellowRange from_ to_).2._signal = s._signal ∧
      (s.setYellowRange from_ to_).2._runState = s._runState) ∧
    (s.setGreenRange from_ to_
        = (HCSR04_ERR_OK, { s with _rangeGreenFrom := from_, _rangeGreenTo := to_ }) ∧
      (s.setGreenRange from_ to_).2._signal = s._signal ∧
      (s.setGreenRange from_ to_).2._runState = s._runState) :=
  ⟨rfl, ⟨rfl, rfl, rfl⟩, ⟨rfl, rfl, rfl⟩, ⟨rfl, rfl, rfl⟩⟩

/-! ## Further auxiliary facts -/

theorem ping_running_eq (s : HCSR04) (hw : Trace) (echo : Int)
    (hrun : s._runState = HCSR04_RUNSTATE_RUNNING) :
    s.ping hw echo =
      (s.checkRange (hw ++ s.triggerSequence) (distanceOf echo)).map
        (fun t => (distanceOf echo, s, t)) := by
  unfold HCSR04.ping
  simp only [hrun, if_true, digitalWrite, delayMicroseconds, pulseIn, List.append_assoc,
    List.singleton_append]
  show (match s.checkRange (hw ++ s.triggerSequence) (distanceOf echo) with
    | none => none
    | some t => some (distanceOf echo, s, t)) = _
  cases s.checkRange (hw ++ s.triggerSequence) (distanceOf echo) <;> rfl

theorem ping_not_running_eq (s : HCSR04) (hw : Trace) (echo : Int)
    (hrun : s._runState ≠ HCSR04_RUNSTATE_RUNNING) :
    s.ping hw echo = (s.checkRange hw (-152)).map (fun t => ((-152 : ℚ), s, t)) := by
  unfold HCSR04.ping
  simp only [hrun, if_false, runstate_error_value]
  cases s.checkRange hw (-152) <;> rfl

theorem ping_object_unchanged (s : HCSR04) (hw : Trace) (echo : Int) (r : ℚ × HCSR04 × Trace)
    (h : s.ping hw echo = some r) : r.2.1 = s := by
  by_cases hrun : s._runState = HCSR04_RUNSTATE_RUNNING
  · rw [ping_running_eq s hw echo hrun] at h
    cases hc : s.checkRange (hw ++ s.triggerSequence) (distanceOf echo) with
    | none => rw [hc] at h; cases h
    | some t => rw [hc] at h; cases h; rfl
  · rw [ping_not_running_eq s hw echo hrun] at h
    cases hc : s.checkRange hw (-152) with
    | none => rw [hc] at h; cases h
    | some t => rw [hc] at h; cases h; rfl

theorem checkRange_appends (s : HCSR04) (hw hw1 : Trace) (distance : ℚ)
    (h : s.checkRange hw distance = some hw1) :
    hw1 = hw ∨ ∃ r y g, hw1 = hw ++ s.zoneWrites r y g := by
  cases hsig : s._signal with
  | false =>
    rw [checkRange_disabled s hw distance hsig] at h
    exact Or.inr ⟨_, _, _, (Option.some.inj h).symm⟩
  | true =>
    cases hv : castShort distance with
    | none => simp [HCSR04.checkRange, hsig, hv] at h
    | some v =>
      rw [checkRange_enabled s hw distance v hsig hv] at h
      have h1 := (Option.some.inj h).symm
      split_ifs at h1
      · exact Or.inr ⟨_, _, _, h1⟩
      · exact Or.inr ⟨_, _, _, h1⟩
      · exact Or.inr ⟨_, _, _, h1⟩
      · exact Or.inl h1

theorem pinLevel_zoneWrites_off (s : HCSR04) (hw : Trace) :
    s.outputs (hw ++ s.zoneWrites HCSR04_LED_OFF HCSR04_LED_OFF HCSR04_LED_OFF)
      = (some HCSR04_LED_OFF, some HCSR04_LED_OFF, some HCSR04_LED_OFF) := by
  have e : hw ++ s.zoneWrites HCSR04_LED_OFF HCSR04_LED_OFF HCSR04_LED_OFF =
      digitalWrite (digitalWrite (digitalWrite hw s._pinRedSignal HCSR04_LED_OFF)
        s._pinYellowSignal HCSR04_LED_OFF) s._pinGreenSignal HCSR04_LED_OFF := by
    simp [digitalWrite, HCSR04.zoneWrites]
  rw [e]
  simp only [HCSR04.outputs, pinLevel_digitalWrite]
  refine Prod.ext ?_ (Prod.ext ?_ ?_) <;> simp

/-! ## The properties, continued -/

/-- C11: with signalling disabled, for every distance, every bounds and every
prior trace, `checkRange` writes the off level to the red, the yellow and the
green pin (and nothing else), also when the value lies inside a zone; after the
call the level of each of the three pins is off. -/
theorem checkRange_disabled_all_off (s : HCSR04) (hw : Trace) (distance : ℚ)
    (hsig : s._signal = false) :
    s.checkRange hw distance
      = some (hw ++ s.zoneWrites HCSR04_LED_OFF HCSR04_LED_OFF HCSR04_LED_OFF) ∧
    (s.checkRange hw distance).map s.outputs
      = some (some HCSR04_LED_OFF, some HCSR04_LED_OFF, some HCSR04_LED_OFF) := by
  rw [checkRange_disabled s hw distance hsig]
  exact ⟨rfl, by rw [Option.map_some', pinLevel_zoneWrites_off]⟩

/-- Witness of C11: the demo driver after `signalOff()`, with red lit before,
and the distance 25 that lies in the red zone. -/
theorem checkRange_disabled_all_off_witness :
    demo.signalOff._signal = false ∧
      isInRange 25 demo.signalOff._rangeRedFrom demo.signalOff._rangeRedTo = true ∧
      (demo.signalOff.checkRange (demo.zoneWrites Level.HIGH Level.LOW Level.LOW) 25).map
          demo.signalOff.outputs
        = some (some HCSR04_LED_OFF, some HCSR04_LED_OFF, some HCSR04_LED_OFF) :=
  ⟨by decide, by decide,
    (checkRange_disabled_all_off demo.signalOff
      (demo.zoneWrites Level.HIGH Level.LOW Level.LOW) 25 (by decide)).2⟩

theorem distancesSet_positive (s : HCSR04) (h : s.distancesSet = true) :
    0 < s._rangeRedFrom ∧ 0 < s._rangeRedTo ∧ 0 < s._rangeYellowFrom ∧
      0 < s._rangeYellowTo ∧ 0 < s._rangeGreenFrom ∧ 0 < s._rangeGreenTo := by
  unfold HCSR04.distancesSet at h
  split_ifs at h with hc
  obtain ⟨_, a, _, b, _, c, _, d, _, e, _, f⟩ := hc
  exact ⟨a, b, c, d, e, f⟩

theorem step_ping_some (s s1 : HCSR04) (hw hw1 : Trace) (echo : Int)
    (h : s.step hw (Op.ping echo) = some (s1, hw1)) :
    s1 = s ∧ ∃ d, s.ping hw echo = some (d, s, hw1) := by
  simp only [HCSR04.step] at h
  cases hp : s.ping hw echo with
  | none => rw [hp] at h; cases h
  | some r =>
    rw [hp] at h
    have hs := ping_object_unchanged s hw echo r hp
    obtain ⟨d, s2, t⟩ := r
    simp only at hs
    cases h
    subst hs
    exact ⟨rfl, d, rfl⟩

theorem step_keeps_flagSound (s s1 : HCSR04) (hw hw1 : Trace) (op : Op)
    (hI : s.flagSound) (hg : op.keepsFlagSound s = true)
    (h : s.step hw op = some (s1, hw1)) : s1.flagSound := by
  have guard : ∀ f t : Int,
      (!s._signal || (decide (0 < f) && decide (0 < t))) = true →
        s._signal = false ∨ (0 < f ∧ 0 < t) := by
    intro f t hb
    cases hsig : s._signal with
    | false => exact Or.inl rfl
    | true =>
      rw [hsig] at hb
      simp only [Bool.not_true, Bool.false_or, Bool.and_eq_true, decide_eq_true_eq] at hb
      exact Or.inr hb
  have setter : ∀ t : HCSR04, t._signal = s._signal →
      (s._signal = true → s.distancesSet = true → t.distancesSet = true) → t.flagSound := by
    intro t ht hd hsig
    rw [ht] at hsig
    exact hd hsig (hI hsig)
  cases op with
  | ping echo => rw [(step_ping_some s s1 hw hw1 echo h).1]; exact hI
  | pause =>
    cases h
    exact fun hsig => (distancesSet_congr s s.pause.2 rfl rfl rfl rfl rfl rfl).trans (hI hsig)
  | stop =>
    cases h
    exact fun hsig => (distancesSet_congr s s.stop.2 rfl rfl rfl rfl rfl rfl).trans (hI hsig)
  | signal => cases h; exact hI
  | signalOff => cases h; exact fun hsig => absurd hsig (by simp [HCSR04.signalOff])
  | signalOn =>
    cases h
    exact fun hsig => (distancesSet_congr s s.signalOn rfl rfl rfl rfl rfl rfl).trans hsig
  | run =>
    cases h
    exact fun hsig => (distancesSet_congr s s.run.2 rfl rfl rfl rfl rfl rfl).trans hsig
  | setRedRange f t =>
    cases h
    refine setter _ rfl ?_
    intro hsig hd
    rcases guard f t hg with hoff | ⟨hf, ht⟩
    · rw [hoff] at hsig; cases hsig
    · obtain ⟨_, _, c, d, e, g⟩ := distancesSet_positive s hd
      exact distancesSet_of_positive _ ⟨hf, ht, c, d, e, g⟩
  | setYellowRange f t =>
    cases h
    refine setter _ rfl ?_
    intro hsig hd
    rcases guard f t hg with hoff | ⟨hf, ht⟩
    · rw [hoff] at hsig; cases hsig
    · obtain ⟨a, b, _, _, e, g⟩ := distancesSet_positive s hd
      exact distancesSet_of_positive _ ⟨a, b, hf, ht, e, g⟩
  | setGreenRange f t =>
    cases h
    refine setter _ rfl ?_
    intro hsig hd
    rcases guard f t hg with hoff | ⟨hf, ht⟩
    · rw [hoff] at hsig; cases hsig
    · obtain ⟨a, b, c, d, _, _⟩ := distancesSet_positive s hd
      exact distancesSet_of_positive _ ⟨a, b, c, d, hf, ht⟩

theorem runOps_keeps_flagSound (ops : List Op) :
    ∀ (w w1 : HCSR04 × Trace), w.1.flagSound → flagSoundRun w ops = true →
      runOps w ops = some w1 → w1.1.flagSound := by
  induction ops with
  | nil =>
    intro w w1 hI _ h
    simp only [runOps] at h
    cases h
    exact hI
  | cons op ops ih =>
    intro w w1 hI hg h
    simp only [runOps] at h
    simp only [flagSoundRun, Bool.and_eq_true] at hg
    cases hs : w.1.step w.2 op with
    | none => rw [hs] at h; cases h
    | some w2 =>
      rw [hs] at h
      rw [hs] at hg
      exact ih w2 w1 (step_keeps_flagSound w.1 w2.1 w.2 w2.2 op hI hg.1 hs) hg.2 h

theorem ctor_flagSound (raw : HCSR04) (hw : Trace)
    (triggerPin echoPin redPin yellowPin greenPin : Int) :
    (HCSR04.ctor raw hw triggerPin echoPin redPin yellowPin greenPin).1.flagSound := by
  intro _
  exact distancesSet_of_positive _
    ⟨(by decide : (0 : Int) < 1), (by decide : (0 : Int) < 30), (by decide : (0 : Int) < 30),
      (by decide : (0 : Int) < 50), (by decide : (0 : Int) < 50), (by decide : (0 : Int) < 200)⟩

theorem step_runState (s s1 : HCSR04) (hw hw1 : Trace) (op : Op)
    (h : s.step hw op = some (s1, hw1)) :
    (op.isLifecycle = false → s1._runState = s._runState) ∧
      (op.isLifecycle = true → s1._runState = HCSR04_RUNSTATE_RUNNING ∨
        s1._runState = HCSR04_RUNSTATE_PAUSED ∨ s1._runState = HCSR04_RUNSTATE_STOPPED) := by
  cases op with
  | ping echo =>
    rw [(step_ping_some s s1 hw hw1 echo h).1]
    exact ⟨fun _ => rfl, fun hl => by cases hl⟩
  | pause => cases h; exact ⟨fun hl => (by cases hl), fun _ => Or.inr (Or.inl rfl)⟩
  | run => cases h; exact ⟨fun hl => (by cases hl), fun _ => Or.inl rfl⟩
  | stop => cases h; exact ⟨fun hl => (by cases hl), fun _ => Or.inr (Or.inr rfl)⟩
  | signal => cases h; exact ⟨fun _ => rfl, fun hl => by cases hl⟩
  | signalOff => cases h; exact ⟨fun _ => rfl, fun hl => by cases hl⟩
  | signalOn => cases h; exact ⟨fun _ => rfl, fun hl => by cases hl⟩
  | setRedRange f t => cases h; exact ⟨fun _ => rfl, fun hl => by cases hl⟩
  | setYellowRange f t => cases h; exact ⟨fun _ => rfl, fun hl => by cases hl⟩
  | setGreenRange f t => cases h; exact ⟨fun _ => rfl, fun hl => by cases hl⟩

/-- The run state is Created, Running, Paused or Stopped. -/
theorem runOps_runState (ops : List Op) :
    ∀ (w w1 : HCSR04 × Trace),
      (w.1._runState = HCSR04_RUNSTATE_CREATED ∨ w.1._runState = HCSR04_RUNSTATE_RUNNING ∨
        w.1._runState = HCSR04_RUNSTATE_PAUSED ∨ w.1._runState = HCSR04_RUNSTATE_STOPPED) →
      runOps w ops = some w1 →
      (w1.1._runState = HCSR04_RUNSTATE_CREATED ∨ w1.1._runState = HCSR04_RUNSTATE_RUNNING ∨
        w1.1._runState = HCSR04_RUNSTATE_PAUSED ∨ w1.1._runState = HCSR04_RUNSTATE_STOPPED) := by
  induction ops with
  | nil =>
    intro w w1 hI h
    simp only [runOps] at h
    cases h
    exact hI
  | cons op ops ih =>
    intro w w1 hI h
    simp only [runOps] at h
    cases hs : w.1.step w.2 op with
    | none => rw [hs] at h; cases h
    | some w2 =>
      rw [hs] at h
      refine ih w2 w1 ?_ h
      have hst := step_runState w.1 w2.1 w.2 w2.2 op hs
      cases hl : op.isLifecycle with
      | false => rw [hst.1 hl]; exact hI
      | true =>
        rcases hst.2 hl with h1 | h1 | h1
        · exact Or.inr (Or.inl h1)
        · exact Or.inr (Or.inr (Or.inl h1))
        · exact Or.inr (Or.inr (Or.inr h1))

/-- Counterexample to C12: after construction (signalling enabled), the call
`setRedRange(-1, 30)` leaves `signal()` true while `distancesSet()` is false. -/
theorem signal_without_distances_after_setter :
    (runOps (HCSR04.ctor rawObject [] 2 3 4 5 6) [Op.setRedRange (-1) 30]).map
        (fun w => (w.1.signal.1, w.1.distancesSet))
      = some (true, false) := by
  decide

/-- C12, amended: in every state reachable from construction by a sequence of
the public operations in which no range setter is given an undefined or
non-positive bound while signalling is enabled, `signal()` = true implies
`distancesSet()` = true. -/
theorem signal_implies_distancesSet_guarded (raw : HCSR04) (hw0 : Trace)
    (triggerPin echoPin redPin yellowPin greenPin : Int) (ops : List Op)
    (s : HCSR04) (hw : Trace)
    (hg : flagSoundRun (HCSR04.ctor raw hw0 triggerPin echoPin redPin yellowPin greenPin) ops
      = true)
    (hr : runOps (HCSR04.ctor raw hw0 triggerPin echoPin redPin yellowPin greenPin) ops
      = some (s, hw)) :
    s.signal.1 = true → s.distancesSet = true :=
  runOps_keeps_flagSound ops _ (s, hw)
    (ctor_flagSound raw hw0 triggerPin echoPin redPin yellowPin greenPin) hg hr

/-- Witness of C12: a run that sets an undefined bound only while signalling is
off, repairs it, and enables signalling again with `run()`. -/
theorem signal_implies_distancesSet_guarded_witness :
    flagSoundRun (HCSR04.ctor rawObject [] 2 3 4 5 6)
        [Op.signalOff, Op.setGreenRange (-1) 7, Op.ping 100, Op.setGreenRange 60 100, Op.run]
      = true ∧
    runOps (HCSR04.ctor rawObject [] 2 3 4 5 6)
        [Op.signalOff, Op.setGreenRange (-1) 7, Op.ping 100, Op.setGreenRange 60 100, Op.run]
      = some ((demo.setGreenRange 60 100).2.run.2,
          [HwCall.pinMode 2 PinMode.OUTPUT, HwCall.pinMode 3 PinMode.INPUT,
           HwCall.pinMode 4 PinMode.OUTPUT, HwCall.pinMode 5 PinMode.OUTPUT,
           HwCall.pinMode 6 PinMode.OUTPUT, HwCall.digitalWrite 4 Level.LOW,
           HwCall.digitalWrite 5 Level.LOW, HwCall.digitalWrite 6 Level.LOW]) ∧
    (demo.setGreenRange 60 100).2.run.2.signal.1 = true ∧
    (demo.setGreenRange 60 100).2.run.2.distancesSet = true :=
  ⟨by decide, by decide, by decide,
    signal_implies_distancesSet_guarded rawObject [] 2 3 4 5 6
      [Op.signalOff, Op.setGreenRange (-1) 7, Op.ping 100, Op.setGreenRange 60 100, Op.run]
      (demo.setGreenRange 60 100).2.run.2
      [HwCall.pinMode 2 PinMode.OUTPUT, HwCall.pinMode 3 PinMode.INPUT,
       HwCall.pinMode 4 PinMode.OUTPUT, HwCall.pinMode 5 PinMode.OUTPUT,
       HwCall.pinMode 6 PinMode.OUTPUT, HwCall.digitalWrite 4 Level.LOW,
       HwCall.digitalWrite 5 Level.LOW, HwCall.digitalWrite 6 Level.LOW]
      (by decide) (by decide) (by decide)⟩

/-- C16: in every state reachable from construction by any sequence of the
public operations the run state is Created, Running, Paused or Stopped, never
Ended and never Unknown; and a call other than `pause`, `run`, `stop` (that is
`ping`, a range setter, `signalOn`, `signalOff`, `signal`) leaves the run state
as it was. -/
theorem runState_reachable_values (raw : HCSR04) (hw0 : Trace)
    (triggerPin echoPin redPin yellowPin greenPin : Int) (ops : List Op)
    (s : HCSR04) (hw : Trace)
    (hr : runOps (HCSR04.ctor raw hw0 triggerPin echoPin redPin yellowPin greenPin) ops
      = some (s, hw)) :
    (s._runState = HCSR04_RUNSTATE_CREATED ∨ s._runState = HCSR04_RUNSTATE_RUNNING ∨
      s._runState = HCSR04_RUNSTATE_PAUSED ∨ s._runState = HCSR04_RUNSTATE_STOPPED) ∧
    s._runState ≠ HCSR04_RUNSTATE_ENDED ∧ s._runState ≠ HCSR04_RUNSTATE_UNKOWN ∧
    (∀ (op : Op) (s1 : HCSR04) (hw1 : Trace), op.isLifecycle = false →
      s.step hw op = some (s1, hw1) → s1._runState = s._runState) := by
  have h := runOps_runState ops _ (s, hw) (Or.inl rfl) hr
  refine ⟨h, ?_, ?_, ?_⟩
  · rcases h with h | h | h | h <;> (simp only at h; rw [h]; decide)
  · rcases h with h | h | h | h <;> (simp only at h; rw [h]; decide)
  · intro op s1 hw1 hl hs
    exact (step_runState s s1 hw hw1 op hs).1 hl

/-- Witness of C16: a run through `run`, a measurement, `stop`, a setter and
`pause`. -/
theorem runState_reachable_values_witness :
    runOps (HCSR04.ctor rawObject [] 2 3 4 5 6)
        [Op.signalOff, Op.run, Op.signalOff, Op.ping 100, Op.stop, Op.setRedRange 5 1, Op.pause]
      = some ((demo.setRedRange 5 1).2.signalOff.pause.2,
          (HCSR04.ctor rawObject [] 2 3 4 5 6).2 ++ demo.triggerSequence
            ++ demo.zoneWrites Level.LOW Level.LOW Level.LOW) ∧
    (demo.setRedRange 5 1).2.signalOff.pause.2._runState = HCSR04_RUNSTATE_PAUSED ∧
    (demo.setRedRange 5 1).2.signalOff.pause.2._runState ≠ HCSR04_RUNSTATE_ENDED :=
  ⟨by decide, by decide,
    (runState_reachable_values rawObject [] 2 3 4 5 6
      [Op.signalOff, Op.run, Op.signalOff, Op.ping 100, Op.stop, Op.setRedRange 5 1, Op.pause]
      (demo.setRedRange 5 1).2.signalOff.pause.2
      ((HCSR04.ctor rawObject [] 2 3 4 5 6).2 ++ demo.triggerSequence
        ++ demo.zoneWrites Level.LOW Level.LOW Level.LOW)
      (by decide)).2.1⟩

theorem tdiv_num_den_eq_trunc (d : ℚ) :
    Int.tdiv d.num (d.den : Int) = truncTowardZero d := by
  unfold truncTowardZero
  by_cases h : 0 ≤ d
  · rw [if_pos h, Rat.floor_def]
    exact Int.tdiv_eq_ediv (Rat.num_nonneg.mpr h) (Int.ofNat_nonneg _)
  · rw [if_neg h]
    have hneg : 0 ≤ -d := by linarith
    have hn : 0 ≤ (-d).num := Rat.num_nonneg.mpr hneg
    have e1 : ⌈d⌉ = -⌊-d⌋ := by rw [Int.floor_neg, neg_neg]
    rw [e1, Rat.floor_def, Rat.den_neg_eq_den]
    have e2 : d.num = -((-d).num) := by rw [Rat.num_neg_eq_neg_num, neg_neg]
    rw [e2, Int.neg_tdiv, Int.tdiv_eq_ediv hn (Int.ofNat_nonneg _)]

theorem castShort_eq_trunc (d : ℚ) : castShort d = some (checkValue d) := by
  unfold castShort checkValue
  simp only [tdiv_num_den_eq_trunc]

theorem wrapShort_of_range (t : Int) (hlo : -32768 ≤ t) (hhi : t ≤ 32767) :
    wrapShort t = t := by
  unfold wrapShort; omega

theorem truncTowardZero_intCast (t : Int) : truncTowardZero (t : ℚ) = t := by
  unfold truncTowardZero
  split_ifs <;> simp

theorem castShort_trunc (d : ℚ) : castShort ((truncTowardZero d : Int) : ℚ) = castShort d := by
  rw [castShort_eq_trunc, castShort_eq_trunc d]
  unfold checkValue
  rw [truncTowardZero_intCast]

theorem castShort_of_floor (d : ℚ) (t : Int) (h0 : 0 ≤ t) (h1 : (t : ℚ) ≤ d)
    (h2 : d < t + 1) (hhi : t ≤ 32767) : castShort d = some t := by
  have hd : 0 ≤ d := le_trans (by exact_mod_cast h0) h1
  have ht : truncTowardZero d = t := by
    unfold truncTowardZero
    rw [if_pos hd]
    exact Int.floor_eq_iff.mpr ⟨h1, h2⟩
  rw [castShort_eq_trunc]
  unfold checkValue
  rw [ht, wrapShort_of_range t (by omega) hhi]

theorem truncTowardZero_range (d : ℚ) (hlo : -32768 ≤ d) (hhi : d ≤ 32767) :
    -32768 ≤ truncTowardZero d ∧ truncTowardZero d ≤ 32767 := by
  unfold truncTowardZero
  by_cases h : 0 ≤ d
  · rw [if_pos h]
    have h1 : 0 ≤ ⌊d⌋ := Int.floor_nonneg.mpr h
    have h2 : ⌊d⌋ ≤ 32767 := by
      have : (⌊d⌋ : ℚ) ≤ 32767 := le_trans (Int.floor_le d) hhi
      exact_mod_cast this
    omega
  · rw [if_neg h]
    have h1 : ⌈d⌉ ≤ 0 := Int.ceil_le.mpr (by push_cast; linarith)
    have h2 : -32768 ≤ ⌈d⌉ := by
      have : ((-32768 : Int) : ℚ) ≤ (⌈d⌉ : ℚ) := by
        push_cast; exact le_trans hlo (Int.le_ceil d)
      exact_mod_cast this
    omega

theorem roundHalfEven_nonneg (y : ℚ) (h : 0 ≤ y) : 0 ≤ roundHalfEven y := by
  have h1 : 0 ≤ ⌊y⌋ := Int.floor_nonneg.mpr h
  unfold roundHalfEven
  simp only
  split_ifs <;> omega

theorem roundToPrecision_nonneg (p : Nat) (x : ℚ) (h : 0 ≤ x) : 0 ≤ roundToPrecision p x := by
  unfold roundToPrecision
  split_ifs with h0
  · exact le_refl _
  · simp only
    have hu : (0 : ℚ) < 2 ^ (Int.log 2 |x| - (p : Int) + 1) := zpow_pos (by norm_num) _
    have hy : 0 ≤ x / 2 ^ (Int.log 2 |x| - (p : Int) + 1) := div_nonneg h hu.le
    have hr : (0 : ℚ) ≤ (roundHalfEven (x / 2 ^ (Int.log 2 |x| - (p : Int) + 1)) : ℚ) := by
      exact_mod_cast roundHalfEven_nonneg _ hy
    exact mul_nonneg hr hu.le

theorem roundHalfEven_of_near (y : ℚ) (m : Int) (h : |y - m| < 1 / 2) : roundHalfEven y = m := by
  rw [abs_lt] at h
  unfold roundHalfEven
  simp only
  by_cases hm : (m : ℚ) ≤ y
  · have hf : ⌊y⌋ = m := Int.floor_eq_iff.mpr ⟨hm, by linarith⟩
    rw [hf, if_pos (by linarith)]
  · have hf : ⌊y⌋ = m - 1 := Int.floor_eq_iff.mpr ⟨by push_cast; linarith, by push_cast; linarith⟩
    rw [hf, if_neg (by push_cast; linarith), if_pos (by push_cast; linarith)]
    omega

theorem log_two_of_bounds (x : ℚ) (e : Int) (hlo : (2 : ℚ) ^ e ≤ x) (hhi : x < 2 ^ (e + 1)) :
    Int.log 2 x = e := by
  have hx : 0 < x := lt_of_lt_of_le (zpow_pos (by norm_num) _) hlo
  have h1 : e ≤ Int.log 2 x := (Int.zpow_le_iff_le_log (b := 2) (by norm_num) hx).mp (by simpa using hlo)
  have h2 : Int.log 2 x < e + 1 :=
    (Int.lt_zpow_iff_log_lt (b := 2) (by norm_num) hx).mp (by simpa using hhi)
  omega

theorem roundToPrecision_of_near (p : Nat) (x : ℚ) (e m : Int)
    (hlo : (2 : ℚ) ^ e ≤ x) (hhi : x < 2 ^ (e + 1))
    (hm : |x / 2 ^ (e - (p : Int) + 1) - m| < 1 / 2) :
    roundToPrecision p x = m * 2 ^ (e - (p : Int) + 1) := by
  have hx : 0 < x := lt_of_lt_of_le (zpow_pos (by norm_num) _) hlo
  unfold roundToPrecision
  rw [if_neg hx.ne']
  simp only
  rw [abs_of_pos hx, log_two_of_bounds x e hlo hhi, roundHalfEven_of_near _ m hm]

theorem asDouble_0_3432 : asDouble (3432 / 10000) = 6182541568454217 / 2 ^ 54 := by
  unfold asDouble
  rw [roundToPrecision_of_near 53 _ (-2) 6182541568454217 (by norm_num) (by norm_num)
    (by rw [abs_lt]; norm_num)]
  norm_num

theorem distanceOf_101 : distanceOf 101 = 4498391 / 262144 := by
  unfold distanceOf
  rw [asDouble_0_3432, show Int.tdiv 101 2 = 50 by decide]
  unfold asFloat asDouble
  rw [roundToPrecision_of_near 53 ((50 : Int) : ℚ) 5 (50 * 2 ^ 47) (by norm_num) (by norm_num)
    (by rw [abs_lt]; norm_num)]
  rw [roundToPrecision_of_near 53 _ 4 4830110600354857 (by norm_num) (by norm_num)
    (by rw [abs_lt]; norm_num)]
  rw [roundToPrecision_of_near 24 _ 4 8996782 (by norm_num) (by norm_num)
    (by rw [abs_lt]; norm_num)]
  norm_num

theorem distanceOf_nonneg (echo : Int) (h : 0 ≤ echo) : 0 ≤ distanceOf echo := by
  unfold distanceOf asFloat asDouble
  have hn0 : (0 : ℚ) ≤ ((Int.tdiv echo 2 : Int) : ℚ) := by
    exact_mod_cast Int.tdiv_nonneg h (by decide)
  exact roundToPrecision_nonneg 24 _ (roundToPrecision_nonneg 53 _
    (mul_nonneg (roundToPrecision_nonneg 53 _ hn0) (roundToPrecision_nonneg 53 _ (by norm_num))))

theorem castShort_of_nonneg_lt (d : ℚ) (h0 : 0 ≤ d) (h1 : d < 32768) :
    castShort d = some ⌊d⌋ := by
  have hf : ⌊d⌋ < 32768 := Int.floor_lt.mpr (by exact_mod_cast h1)
  exact castShort_of_floor d ⌊d⌋ (Int.floor_nonneg.mpr h0) (Int.floor_le d)
    (Int.lt_floor_add_one d) (by omega)

theorem checkRange_defined (s : HCSR04) (hw : Trace) (distance : ℚ)
    (h : s._signal = false ∨ ∃ v, castShort distance = some v) :
    ∃ t, s.checkRange hw distance = some t := by
  rcases h with h | ⟨v, hv⟩
  · exact ⟨_, checkRange_disabled s hw distance h⟩
  · exact checkRange_total_of_cast s hw distance v hv

theorem checkRange_congr_cast (s : HCSR04) (hw : Trace) (d1 d2 : ℚ)
    (h : castShort d1 = castShort d2) : s.checkRange hw d1 = s.checkRange hw d2 := by
  unfold HCSR04.checkRange
  rw [h]

theorem ping_running_defined (s : HCSR04) (hw : Trace) (echo : Int)
    (hrun : s._runState = HCSR04_RUNSTATE_RUNNING) (hd : 0 ≤ echo)
    (h : s._signal = false ∨ distanceOf echo < 32768) :
    ∃ t, s.checkRange (hw ++ s.triggerSequence) (distanceOf echo) = some t ∧
      s.ping hw echo = some (distanceOf echo, s, t) := by
  have hc : ∃ t, s.checkRange (hw ++ s.triggerSequence) (distanceOf echo) = some t := by
    apply checkRange_defined
    rcases h with h | h
    · exact Or.inl h
    · exact Or.inr ⟨_, castShort_of_nonneg_lt _ (distanceOf_nonneg echo hd) h⟩
  obtain ⟨t, ht⟩ := hc
  exact ⟨t, ht, by rw [ping_running_eq s hw echo hrun, ht]; rfl⟩

/-- C18: `checkRange` sees the distance only through its truncation toward
zero: for every distance the call behaves as for the truncated value, and for a
distance within the 16-bit signed range both calls are defined and leave the
same trace, hence the same outputs.  With signalling enabled and the default
bounds 30.9 is classified red, as 30, and 0.9 matches no zone, as 0. -/
theorem checkRange_truncates (s : HCSR04) (hw : Trace) (d : ℚ) :
    s.checkRange hw d = s.checkRange hw ((truncTowardZero d : Int) : ℚ) ∧
    (-32768 ≤ d → d ≤ 32767 →
      ∃ t, s.checkRange hw d = some t ∧
        s.checkRange hw ((truncTowardZero d : Int) : ℚ) = some t ∧
        (s.checkRange hw d).map s.outputs
          = (s.checkRange hw ((truncTowardZero d : Int) : ℚ)).map s.outputs) ∧
    (s._signal = true → s.defaultBounds →
      truncTowardZero 30.9 = 30 ∧ truncTowardZero 0.9 = 0 ∧
      s.checkRange hw 30.9
          = some (hw ++ s.zoneWrites HCSR04_LED_ON HCSR04_LED_OFF HCSR04_LED_OFF) ∧
      s.checkRange hw 30.9 = s.checkRange hw 30 ∧
      s.checkRange hw 0.9 = some hw ∧
      s.checkRange hw 0.9 = s.checkRange hw 0) := by
  have heq : s.checkRange hw d = s.checkRange hw ((truncTowardZero d : Int) : ℚ) :=
    checkRange_congr_cast s hw _ _ (castShort_trunc d).symm
  refine ⟨heq, ?_, ?_⟩
  · intro hlo hhi
    have hc : castShort d = some (truncTowardZero d) := by
      rw [castShort_eq_trunc]
      unfold checkValue
      rw [wrapShort_of_range _ (truncTowardZero_range d hlo hhi).1
        (truncTowardZero_range d hlo hhi).2]
    obtain ⟨t, ht⟩ := checkRange_total_of_cast s hw d _ hc
    exact ⟨t, ht, heq ▸ ht, by rw [← heq]⟩
  · rintro hsig ⟨h1, h2, h3, h4, h5, h6⟩
    have c30 : castShort (30.9 : ℚ) = some 30 :=
      castShort_of_floor _ 30 (by decide) (by norm_num) (by norm_num) (by decide)
    have c0 : castShort (0.9 : ℚ) = some 0 :=
      castShort_of_floor _ 0 (by decide) (by norm_num) (by norm_num) (by decide)
    have t30 : truncTowardZero 30.9 = 30 := by
      unfold truncTowardZero
      rw [if_pos (by norm_num)]
      exact Int.floor_eq_iff.mpr ⟨by norm_num, by norm_num⟩
    have t0 : truncTowardZero 0.9 = 0 := by
      unfold truncTowardZero
      rw [if_pos (by norm_num)]
      exact Int.floor_eq_iff.mpr ⟨by norm_num, by norm_num⟩
    refine ⟨t30, t0, ?_, ?_, ?_, ?_⟩
    · rw [checkRange_enabled s hw _ 30 hsig c30, h1, h2]
      simp only [show isInRange 30 1 30 = true by decide, if_true]
    · exact checkRange_congr_cast s hw _ _ (c30.trans (by decide))
    · rw [checkRange_enabled s hw _ 0 hsig c0, h1, h2, h3, h4, h5, h6]
      simp only [show isInRange 0 1 30 = false by decide,
        show isInRange 0 30 50 = false by decide, show isInRange 0 50 200 = false by decide,
        Bool.false_eq_true, if_false]
    · exact checkRange_congr_cast s hw _ _ (c0.trans (by decide))

/-- Witness of C18: the demo driver and the distance 30.9. -/
theorem checkRange_truncates_witness :
    demo._signal = true ∧ demo.defaultBounds ∧
      demo.checkRange [] 30.9
        = some ([] ++ demo.zoneWrites HCSR04_LED_ON HCSR04_LED_OFF HCSR04_LED_OFF) :=
  ⟨by decide, by decide,
    ((checkRange_truncates demo [] 30.9).2.2 (by decide) (by decide)).2.2.1⟩
theorem pinLevel_append_no_write (hw w : Trace) (pin : Int)
    (h : ∀ c ∈ w, HwCall.isWrite c = false) : pinLevel (hw ++ w) pin = pinLevel hw pin := by
  induction hw with
  | nil =>
    induction w with
    | nil => rfl
    | cons c rest ih =>
      have hr := ih (fun c hc => h c (List.mem_cons_of_mem _ hc))
      have hc := h c (List.mem_cons_self _ _)
      simp only [List.nil_append] at hr ⊢
      cases c with
      | digitalWrite p l => cases hc
      | pinMode p m => simp only [pinLevel, hr]
      | delayMicroseconds u => simp only [pinLevel, hr]
      | pulseIn p l => simp only [pinLevel, hr]
  | cons a rest ih =>
    have hc : pinLevel (a :: (rest ++ w)) pin =
        match pinLevel (rest ++ w) pin with
        | some l => some l
        | none =>
          match a with
          | HwCall.digitalWrite p l => if p = pin then some l else none
          | _ => none := rfl
    rw [List.cons_append, hc, ih]
    rfl

theorem ctor_trace (raw : HCSR04) (hw : Trace)
    (triggerPin echoPin redPin yellowPin greenPin : Int) :
    (HCSR04.ctor raw hw triggerPin echoPin redPin yellowPin greenPin).2
      = hw ++ ctorCalls triggerPin echoPin redPin yellowPin greenPin := by
  simp only [HCSR04.ctor, ctorCalls, pinMode]
  split_ifs <;> simp

theorem ctorCalls_no_write (triggerPin echoPin redPin yellowPin greenPin : Int) :
    ∀ c ∈ ctorCalls triggerPin echoPin redPin yellowPin greenPin, HwCall.isWrite c = false := by
  intro c hc
  simp only [ctorCalls, List.mem_append] at hc
  rcases hc with (((hc | hc) | hc) | hc) | hc <;>
    (split_ifs at hc <;> simp at hc; subst hc; rfl)

/-- Counterexample to C14: the red indicator on pin 4 was driven high before
the object is constructed.  The constructor issues five `pinMode` calls and no
write, and pin 4 is still high afterwards. -/
theorem ctor_leaves_indicator_lit :
    (HCSR04.ctor rawObject [HwCall.digitalWrite 4 Level.HIGH] 2 3 4 5 6).2
      = [HwCall.digitalWrite 4 Level.HIGH,
         HwCall.pinMode 2 PinMode.OUTPUT, HwCall.pinMode 3 PinMode.INPUT,
         HwCall.pinMode 4 PinMode.OUTPUT, HwCall.pinMode 5 PinMode.OUTPUT,
         HwCall.pinMode 6 PinMode.OUTPUT] ∧
    pinLevel (HCSR04.ctor rawObject [HwCall.digitalWrite 4 Level.HIGH] 2 3 4 5 6).2 4
      = some Level.HIGH := by
  decide

/-- C14, amended: construction configures the direction of every assigned pin
(trigger as output, echo as input, each assigned indicator as output) and makes
no other hardware call: the constructor issues no `digitalWrite`, so the level
of every pin after construction is what it was before. -/
theorem ctor_hardware_calls (raw : HCSR04) (hw : Trace)
    (triggerPin echoPin redPin yellowPin greenPin : Int) :
    (HCSR04.ctor raw hw triggerPin echoPin redPin yellowPin greenPin).2
      = hw ++ ctorCalls triggerPin echoPin redPin yellowPin greenPin ∧
    (triggerPin ≠ HCSR04_NO_LED → HwCall.pinMode triggerPin PinMode.OUTPUT
      ∈ ctorCalls triggerPin echoPin redPin yellowPin greenPin) ∧
    (echoPin ≠ HCSR04_NO_LED → HwCall.pinMode echoPin PinMode.INPUT
      ∈ ctorCalls triggerPin echoPin redPin yellowPin greenPin) ∧
    (redPin ≠ HCSR04_NO_LED → HwCall.pinMode redPin PinMode.OUTPUT
      ∈ ctorCalls triggerPin echoPin redPin yellowPin greenPin) ∧
    (yellowPin ≠ HCSR04_NO_LED → HwCall.pinMode yellowPin PinMode.OUTPUT
      ∈ ctorCalls triggerPin echoPin redPin yellowPin greenPin) ∧
    (greenPin ≠ HCSR04_NO_LED → HwCall.pinMode greenPin PinMode.OUTPUT
      ∈ ctorCalls triggerPin echoPin redPin yellowPin greenPin) ∧
    (∀ c ∈ ctorCalls triggerPin echoPin redPin yellowPin greenPin, HwCall.isWrite c = false) ∧
    (∀ pin, pinLevel (HCSR04.ctor raw hw triggerPin echoPin redPin yellowPin greenPin).2 pin
      = pinLevel hw pin) := by
  refine ⟨ctor_trace raw hw _ _ _ _ _, ?_, ?_, ?_, ?_, ?_, ctorCalls_no_write _ _ _ _ _, ?_⟩
  · intro h; simp [ctorCalls, h]
  · intro h; simp [ctorCalls, h]
  · intro h; simp [ctorCalls, h]
  · intro h; simp [ctorCalls, h]
  · intro h; simp [ctorCalls, h]
  · intro pin
    rw [ctor_trace]
    exact pinLevel_append_no_write hw _ pin (ctorCalls_no_write _ _ _ _ _)

/-- Witness of C14: the red pin 4 of the demo construction is assigned and gets
its direction. -/
theorem ctor_hardware_calls_witness :
    (4 : Int) ≠ HCSR04_NO_LED ∧ HwCall.pinMode 4 PinMode.OUTPUT ∈ ctorCalls 2 3 4 5 6 :=
  ⟨by decide, (ctor_hardware_calls rawObject [] 2 3 4 5 6).2.2.2.1 (by decide)⟩

/-- C13, the code at the failing input: a driver constructed with trigger 2,
echo 3 and the three indicator pins unassigned (-1).  The constructor skips the
`pinMode` calls of the unassigned pins, but `ping` then issues `digitalWrite`
calls with the pin -1: three writes of the off level after `signalOff()`, and
the writes of the red zone after `run()` with an echo of 101 microseconds. -/
theorem unassigned_indicator_pin_written :
    (HCSR04.ctor rawObject [] 2 3 HCSR04_NO_LED HCSR04_NO_LED HCSR04_NO_LED).2
      = [HwCall.pinMode 2 PinMode.OUTPUT, HwCall.pinMode 3 PinMode.INPUT] ∧
    demoNoLed.pins = (2, 3, -1, -1, -1) ∧
    demoNoLed.signalOff.ping [] 0
      = some (-152, demoNoLed.signalOff,
          [HwCall.digitalWrite (-1) Level.LOW, HwCall.digitalWrite (-1) Level.LOW,
           HwCall.digitalWrite (-1) Level.LOW]) ∧
    demoNoLed.run.2.ping [] 101
      = some (distanceOf 101, demoNoLed.run.2,
          demoNoLed.triggerSequence ++
            [HwCall.digitalWrite (-1) Level.HIGH, HwCall.digitalWrite (-1) Level.LOW,
             HwCall.digitalWrite (-1) Level.LOW]) := by
  refine ⟨by decide, by decide, by decide, ?_⟩
  have hc : castShort (distanceOf 101) = some 17 := by
    rw [distanceOf_101]
    exact castShort_of_floor _ 17 (by decide) (by norm_num) (by norm_num) (by decide)
  rw [ping_running_eq demoNoLed.run.2 [] 101 (by decide),
    checkRange_enabled demoNoLed.run.2 _ _ 17 (by decide) hc]
  rfl

theorem zoneWrites_indicator (s : HCSR04) (a b c : Level) :
    ∀ x ∈ s.zoneWrites a b c, ∃ p l, x = HwCall.digitalWrite p l ∧
      (p = s._pinRedSignal ∨ p = s._pinYellowSignal ∨ p = s._pinGreenSignal) := by
  intro x hx
  simp only [HCSR04.zoneWrites, List.mem_cons, List.mem_singleton, List.not_mem_nil,
    or_false] at hx
  rcases hx with hx | hx | hx
  · exact ⟨_, _, hx, Or.inl rfl⟩
  · exact ⟨_, _, hx, Or.inr (Or.inl rfl)⟩
  · exact ⟨_, _, hx, Or.inr (Or.inr rfl)⟩

theorem ping_not_running_trace (s : HCSR04) (hw : Trace) (echo : Int)
    (hrun : s._runState ≠ HCSR04_RUNSTATE_RUNNING) :
    ∃ w, s.ping hw echo = some (-152, s, hw ++ w) ∧
      (w = [] ∨ ∃ a b c, w = s.zoneWrites a b c) := by
  obtain ⟨t, ht⟩ := checkRange_total_of_cast s hw (-152) (-152) castShort_runstate_error
  have hp := ping_of_not_running s hw t echo hrun ht
  rcases checkRange_appends s hw t (-152) ht with h | ⟨a, b, c, h⟩
  · exact ⟨[], by rw [hp, h, List.append_nil], Or.inl rfl⟩
  · exact ⟨_, by rw [hp, h], Or.inr ⟨a, b, c, rfl⟩⟩

/-- C17: when the run state is Running, `ping` first issues, in this order, a
low write to the trigger pin, a delay of 2 microseconds, a high write to the
trigger pin, a delay of 10 microseconds, a low write to the trigger pin and one
pulse read of the echo pin at the high level, and only then classifies: the
trace handed to `checkRange` is the old one followed by these six calls, and
every trace `ping` leaves starts with them.  When the run state is not Running,
the only calls `ping` adds are the writes of the classification to the
indicator pins: no delay, no pulse read, and no write to the trigger pin. -/
theorem ping_hardware_sequence (s : HCSR04) (hw : Trace) (echo : Int) :
    (s._runState = HCSR04_RUNSTATE_RUNNING →
      s.triggerSequence
        = [HwCall.digitalWrite s._pinTrigger Level.LOW, HwCall.delayMicroseconds 2,
           HwCall.digitalWrite s._pinTrigger Level.HIGH, HwCall.delayMicroseconds 10,
           HwCall.digitalWrite s._pinTrigger Level.LOW,
           HwCall.pulseIn s._pinEcho Level.HIGH] ∧
      s.ping hw echo =
        (s.checkRange (hw ++ s.triggerSequence) (distanceOf echo)).map
          (fun t => (distanceOf echo, s, t)) ∧
      (∀ r, s.ping hw echo = some r →
        ∃ w, r.2.2 = hw ++ s.triggerSequence ++ w ∧
          (w = [] ∨ ∃ a b c, w = s.zoneWrites a b c)) ∧
      (0 ≤ echo → (s._signal = false ∨ distanceOf echo < 32768) →
        ∃ r, s.ping hw echo = some r)) ∧
    (s._runState ≠ HCSR04_RUNSTATE_RUNNING →
      ∃ w, s.ping hw echo = some (-152, s, hw ++ w) ∧
        (w = [] ∨ ∃ a b c, w = s.zoneWrites a b c) ∧
        (∀ x ∈ w, ∃ p l, x = HwCall.digitalWrite p l ∧
          (p = s._pinRedSignal ∨ p = s._pinYellowSignal ∨ p = s._pinGreenSignal)) ∧
        (s._pinTrigger ≠ s._pinRedSignal → s._pinTrigger ≠ s._pinYellowSignal →
          s._pinTrigger ≠ s._pinGreenSignal → ∀ x ∈ w, s.isTriggerStep x = false)) := by
  refine ⟨fun hrun => ⟨rfl, ping_running_eq s hw echo hrun, ?_, ?_⟩, fun hrun => ?_⟩
  · intro r hr
    rw [ping_running_eq s hw echo hrun] at hr
    cases hc : s.checkRange (hw ++ s.triggerSequence) (distanceOf echo) with
    | none => rw [hc] at hr; cases hr
    | some t =>
      rw [hc] at hr
      cases hr
      rcases checkRange_appends s _ t _ hc with h | ⟨a, b, c, h⟩
      · exact ⟨[], by simp [h], Or.inl rfl⟩
      · exact ⟨_, h, Or.inr ⟨a, b, c, rfl⟩⟩
  · intro hd h
    obtain ⟨t, _, hp⟩ := ping_running_defined s hw echo hrun hd h
    exact ⟨_, hp⟩
  · obtain ⟨w, hp, hw2⟩ := ping_not_running_trace s hw echo hrun
    have hind : ∀ x ∈ w, ∃ p l, x = HwCall.digitalWrite p l ∧
        (p = s._pinRedSignal ∨ p = s._pinYellowSignal ∨ p = s._pinGreenSignal) := by
      rcases hw2 with h | ⟨a, b, c, h⟩
      · intro x hx; rw [h] at hx; cases hx
      · rw [h]; exact zoneWrites_indicator s a b c
    refine ⟨w, hp, hw2, hind, ?_⟩
    intro h1 h2 h3 x hx
    obtain ⟨p, l, hx1, hx2⟩ := hind x hx
    rw [hx1]
    simp only [HCSR04.isTriggerStep, decide_eq_false_iff_not]
    rcases hx2 with e | e | e
    · rw [e]; exact Ne.symm h1
    · rw [e]; exact Ne.symm h2
    · rw [e]; exact Ne.symm h3

/-- Witness of C17: the running demo driver with signalling switched off, so
that the classification writes three off levels after the trigger sequence. -/
theorem ping_hardware_sequence_witness :
    demoRunning.signalOff._runState = HCSR04_RUNSTATE_RUNNING ∧
      demoRunning.signalOff.ping [] 101
        = some (distanceOf 101, demoRunning.signalOff,
            [HwCall.digitalWrite 2 Level.LOW, HwCall.delayMicroseconds 2,
             HwCall.digitalWrite 2 Level.HIGH, HwCall.delayMicroseconds 10,
             HwCall.digitalWrite 2 Level.LOW, HwCall.pulseIn 3 Level.HIGH,
             HwCall.digitalWrite 4 Level.LOW, HwCall.digitalWrite 5 Level.LOW,
             HwCall.digitalWrite 6 Level.LOW]) ∧
      ∃ w, [HwCall.digitalWrite 2 Level.LOW, HwCall.delayMicroseconds 2,
             HwCall.digitalWrite 2 Level.HIGH, HwCall.delayMicroseconds 10,
             HwCall.digitalWrite 2 Level.LOW, HwCall.pulseIn 3 Level.HIGH,
             HwCall.digitalWrite 4 Level.LOW, HwCall.digitalWrite 5 Level.LOW,
             HwCall.digitalWrite 6 Level.LOW]
          = [] ++ demoRunning.signalOff.triggerSequence ++ w ∧
          (w = [] ∨ ∃ a b c, w = demoRunning.signalOff.zoneWrites a b c) :=
  have hp : demoRunning.signalOff.ping [] 101
      = some (distanceOf 101, demoRunning.signalOff,
          [HwCall.digitalWrite 2 Level.LOW, HwCall.delayMicroseconds 2,
           HwCall.digitalWrite 2 Level.HIGH, HwCall.delayMicroseconds 10,
           HwCall.digitalWrite 2 Level.LOW, HwCall.pulseIn 3 Level.HIGH,
           HwCall.digitalWrite 4 Level.LOW, HwCall.digitalWrite 5 Level.LOW,
           HwCall.digitalWrite 6 Level.LOW]) := by
    rw [ping_running_eq _ [] 101 (by decide), checkRange_disabled _ _ _ (by decide)]
    rfl
  ⟨by decide, hp,
    ((ping_hardware_sequence demoRunning.signalOff [] 101).1 (by decide)).2.2.1 _ hp⟩

/-- C19: `ping` leaves the six zone bounds, the signalling flag and the pin
assignments as they were, for every state and echo duration (and it returns
whenever the run state is not Running, signalling is disabled, or the distance
fits the check value); `pause()` and `stop()` change the run state and nothing
else.  Over all public operations: a call that is not a range setter keeps the
six bounds, a call other than `signalOn`, `signalOff`, `run` keeps the flag, and
no call changes the pins. -/
theorem frame_of_operations (s : HCSR04) (hw : Trace) :
    (∀ (echo : Int) (r : ℚ × HCSR04 × Trace), s.ping hw echo = some r →
      r.2.1.bounds = s.bounds ∧ r.2.1._signal = s._signal ∧ r.2.1.pins = s.pins) ∧
    (∀ echo : Int,
      (s._runState ≠ HCSR04_RUNSTATE_RUNNING ∨ s._signal = false ∨
        (0 ≤ echo ∧ distanceOf echo < 32768)) → ∃ r, s.ping hw echo = some r) ∧
    s.pause.2 = { s with _runState := HCSR04_RUNSTATE_PAUSED } ∧
    s.stop.2 = { s with _runState := HCSR04_RUNSTATE_STOPPED } ∧
    (∀ (op : Op) (s1 : HCSR04) (hw1 : Trace), s.step hw op = some (s1, hw1) →
      (op.isRangeSetter = false → s1.bounds = s.bounds) ∧
      (op ≠ Op.signalOn → op ≠ Op.signalOff → op ≠ Op.run → s1._signal = s._signal) ∧
      s1.pins = s.pins) := by
  refine ⟨?_, ?_, rfl, rfl, ?_⟩
  · intro echo r hr
    rw [ping_object_unchanged s hw echo r hr]
    exact ⟨rfl, rfl, rfl⟩
  · intro echo h
    by_cases hrun : s._runState = HCSR04_RUNSTATE_RUNNING
    · rcases h with h | h | ⟨h0, h1⟩
      · exact absurd hrun h
      · rw [ping_running_eq s hw echo hrun, checkRange_disabled s _ _ h]
        exact ⟨_, rfl⟩
      · obtain ⟨t, _, hp⟩ := ping_running_defined s hw echo hrun h0 (Or.inr h1)
        exact ⟨_, hp⟩
    · obtain ⟨w, hp, _⟩ := ping_not_running_trace s hw echo hrun
      exact ⟨_, hp⟩
  · intro op s1 hw1 h
    cases op with
    | ping echo =>
      rw [(step_ping_some s s1 hw hw1 echo h).1]
      exact ⟨fun _ => rfl, fun _ _ _ => rfl, rfl⟩
    | pause => cases h; exact ⟨fun _ => rfl, fun _ _ _ => rfl, rfl⟩
    | stop => cases h; exact ⟨fun _ => rfl, fun _ _ _ => rfl, rfl⟩
    | signal => cases h; exact ⟨fun _ => rfl, fun _ _ _ => rfl, rfl⟩
    | run => cases h; exact ⟨fun _ => rfl, fun _ _ hn => absurd rfl hn, rfl⟩
    | signalOn => cases h; exact ⟨fun _ => rfl, fun hn _ _ => absurd rfl hn, rfl⟩
    | signalOff => cases h; exact ⟨fun _ => rfl, fun _ hn _ => absurd rfl hn, rfl⟩
    | setRedRange f t => cases h; exact ⟨fun hn => (by cases hn), fun _ _ _ => rfl, rfl⟩
    | setYellowRange f t => cases h; exact ⟨fun hn => (by cases hn), fun _ _ _ => rfl, rfl⟩
    | setGreenRange f t => cases h; exact ⟨fun hn => (by cases hn), fun _ _ _ => rfl, rfl⟩

/-- Witness of C19: the running demo driver measures an echo of 101
microseconds; the object after the call is the object before it. -/
theorem frame_of_operations_witness :
    (∃ r, demoRunning.ping [] 101 = some r) ∧
      ∀ r, demoRunning.ping [] 101 = some r →
        r.2.1.bounds = demoRunning.bounds ∧ r.2.1._signal = demoRunning._signal ∧
          r.2.1.pins = demoRunning.pins :=
  ⟨(frame_of_operations demoRunning []).2.1 101
      (Or.inr (Or.inr ⟨by decide, by rw [distanceOf_101]; norm_num⟩)),
    (frame_of_operations demoRunning []).1 101⟩

